import Mathlib

/-!
# Verification of the variable layer-height core (libslic3r/Slicing.cpp)

Shallow embedding of `xs/src/libslic3r/Slicing.cpp` over `ℚ` (the source's
`coordf_t` doubles modelled as exact rationals), together with theorems
settling the frozen claims about the layer-height-profile machinery:
parameter derivation (`SlicingParameters::create_from_config`), the range
profile builder (`layer_height_profile_from_ranges`), the adaptive builder
(`layer_height_profile_adaptive`), the interactive profile editor
(`adjust_layer_height_profile`) and the layer boundary generator
(`generate_object_layers`).

Profiles are flat even-length lists alternating `z, height`, exactly as the
source's `std::vector<coordf_t>`.  C++ `while` loops become fuel-based
recursion; the fuel chosen at each call site exceeds the iteration count of
every terminating source run, and all invariant theorems below hold for every
fuel value.  Array indexing `v[i]` becomes `List.getD l i 0` (the source
guarantees in-bounds access on the runs of interest; out-of-bounds access in
C++ is undefined behaviour).  `size_t` subtraction `i -= 2` at `i = 0`
(possible in `adjust_layer_height_profile`, line 339 of the source, when the
band's lower edge is at `z = 0`) wraps in C++ and leads to out-of-bounds
reads; the embedding uses truncating `ℕ` subtraction there, and every theorem
touching that code path carries a hypothesis keeping the band's lower edge
strictly positive, so the modelled runs never enter that undefined region.
-/

namespace Slic3r

/-- Modelled from the spec: the numeric tolerance `EPSILON` used for the
epsilon comparisons throughout the file.  Its definition (`libslic3r.h`) is
not part of the sources under review; Slic3r defines it as `1e-4`. -/
def EPSILON : ℚ := 1 / 10000

/-- Linear interpolation, Slicing.cpp lines 269–274 (the `assert` on `t` is a
debug-only check and carries no semantics). -/
def lerp (a b t : ℚ) : ℚ := (1 - t) * a + t * b

/-- Clamp to `[low, high]`, Slicing.cpp lines 263–267. -/
def clamp (low high value : ℚ) : ℚ := max low (min high value)

/-! ## Flat profiles as pair lists

A layer-height profile is a flat list `z₀, h₀, z₁, h₁, …`.  `toPairs`
regroups it into `(z, h)` sample pairs (even-index entries are `z`
coordinates, odd-index entries are heights). -/

/-- Regroup a flat `z, h, z, h, …` list into `(z, h)` pairs; a trailing odd
element (never produced by the source) is dropped. -/
def toPairs : List ℚ → List (ℚ × ℚ)
  | z :: h :: rest => (z, h) :: toPairs rest
  | _ => []

/-- The profile invariants of the spec's data model (§3): even length, first
`z` is `0`, `z` values non-decreasing, every height within
`[min_layer_height, max_layer_height]`.  Stated over the pair view: pair
`k`'s first component is the flat list's entry `2k`, its second component is
entry `2k+1`. -/
def zChain (p : List ℚ) : Prop :=
  List.Chain' (fun a b : ℚ × ℚ => a.1 ≤ b.1) (toPairs p)

/-! ## SlicingParameters -/

/-- The `SlicingParameters` value type of `Slicing.hpp`.  The field list is
taken from the assignments in `Slicing.cpp` plus the spec's data model (§3);
`Slicing.hpp` itself is not part of the sources under review. -/
structure SlicingParameters where
  layer_height : ℚ := 0
  first_object_layer_height : ℚ := 0
  min_layer_height : ℚ := 0
  max_layer_height : ℚ := 0
  object_print_z_min : ℚ := 0
  object_print_z_max : ℚ := 0
  base_raft_layers : ℤ := 0
  interface_raft_layers : ℤ := 0
  base_raft_layer_height : ℚ := 0
  interface_raft_layer_height : ℚ := 0
  contact_raft_layer_height : ℚ := 0
  contact_raft_layer_height_bridging : Bool := false
  first_object_layer_bridging : Bool := false
  deriving DecidableEq

/-- Modelled from the spec (§3 derived queries; `Slicing.hpp` is not in the
sources): the total raft layer count.  The spec words it as "base+interface+1
contact", but `create_from_config` (authoritative, in the sources) splits the
configured total count into `interface = (total+1)/2` and
`base = total - interface`, with the contact layer counted inside the
interface layers — line 74 compares `raft_layers() == 1` against a single
configured raft layer — so the total is `base + interface`. -/
def SlicingParameters.raft_layers (sp : SlicingParameters) : ℤ :=
  sp.base_raft_layers + sp.interface_raft_layers

/-- Modelled from the spec (§3): `has_raft() ⇔ raft_layers() > 0`. -/
def SlicingParameters.has_raft (sp : SlicingParameters) : Bool :=
  decide (0 < sp.raft_layers)

/-- Modelled from the spec (§3): `object_print_z_height() = max − min`. -/
def SlicingParameters.object_print_z_height (sp : SlicingParameters) : ℚ :=
  sp.object_print_z_max - sp.object_print_z_min

/-- Modelled from the spec (§3): the first object layer height is fixed
unless the first object layer is a bridging layer. -/
def SlicingParameters.first_object_layer_height_fixed (sp : SlicingParameters) : Bool :=
  ! sp.first_object_layer_bridging

/-- The profile invariants of the spec's data model (§3). -/
def profile_invariants (sp : SlicingParameters) (p : List ℚ) : Prop :=
  p.length % 2 = 0 ∧ p.head? = some 0 ∧ zChain p ∧
    ∀ pr ∈ toPairs p, sp.min_layer_height ≤ pr.2 ∧ pr.2 ≤ sp.max_layer_height

/-! ## Configuration model and `create_from_config` (lines 21–104) -/

/-- Modelled from the spec (§6 consumed interfaces): a configuration value
that is either an absolute length or a percentage of a reference length
(`first_layer_height` may be "absolute or percentage-of-nominal"). -/
structure ConfigOptionFloatOrPercent where
  value : ℚ
  percent : Bool

/-- Modelled from the spec: resolve an absolute-or-percent option against a
reference value. -/
def ConfigOptionFloatOrPercent.get_abs_value
    (o : ConfigOptionFloatOrPercent) (ratio_over : ℚ) : ℚ :=
  if o.percent then ratio_over * o.value / 100 else o.value

/-- Modelled from the spec (§4.1, §7: "caller guarantees extruder indices are
valid"): indexed access into the per-extruder diameter list; out-of-range
indices (never produced by a valid caller) fall back to the first entry. -/
def get_at (l : List ℚ) (i : ℤ) : ℚ :=
  if 0 ≤ i then l.getD i.toNat (l.headD 0) else l.headD 0

/-- The print-level configuration consumed by `create_from_config`. -/
structure PrintConfig where
  nozzle_diameter : List ℚ

/-- The object-level configuration consumed by `create_from_config`. -/
structure PrintObjectConfig where
  layer_height : ℚ
  first_layer_height : ConfigOptionFloatOrPercent
  raft_layers : ℤ
  support_material_extruder : ℤ
  support_material_interface_extruder : ℤ
  support_material_contact_distance : ℚ

/-- The resolved first layer height, Slicing.cpp lines 27–29: the configured
layer height when the configured first-layer height is non-positive, else the
first-layer option resolved against the nominal layer height. -/
def resolvedFirstLayerHeight (object_config : PrintObjectConfig) : ℚ :=
  if object_config.first_layer_height.value ≤ 0 then object_config.layer_height
  else object_config.first_layer_height.get_abs_value object_config.layer_height

/-- Slicing.cpp lines 41–68, the raft splitting block: split the configured
raft layer total into interface/base counts, derive the raft layer heights,
and — when the support interface is not soluble — override the first object
layer height with the average object-extruder diameter and mark it bridging.
Only the active `#if 1` branch (lines 49–62) is embedded; lines 63–67 are
dead code. -/
def createRaftSplit (print_config : PrintConfig)
    (object_config : PrintObjectConfig) (object_extruders : List ℕ)
    (params : SlicingParameters) : SlicingParameters :=
  if 0 < params.base_raft_layers then
    let support_material_extruder_dmr :=
      get_at print_config.nozzle_diameter (object_config.support_material_extruder - 1)
    let support_material_interface_extruder_dmr :=
      get_at print_config.nozzle_diameter
        (object_config.support_material_interface_extruder - 1)
    let interface_raft_layers := (params.base_raft_layers + 1) / 2
    let params' :=
      { params with
        interface_raft_layers := interface_raft_layers
        base_raft_layers := params.base_raft_layers - interface_raft_layers
        base_raft_layer_height :=
          max params.layer_height (3/4 * support_material_extruder_dmr)
        interface_raft_layer_height :=
          max params.layer_height (3/4 * support_material_interface_extruder_dmr)
        contact_raft_layer_height_bridging := false
        first_object_layer_bridging := false
        contact_raft_layer_height :=
          max params.layer_height (3/4 * support_material_interface_extruder_dmr) }
    if object_config.support_material_contact_distance = 0 then params'
    else
      let average_object_extruder_dmr : ℚ :=
        if object_extruders ≠ [] then
          (object_extruders.map
            (fun i => get_at print_config.nozzle_diameter (i : ℤ))).sum /
            (object_extruders.length : ℚ)
        else 0
      { params' with
        first_object_layer_height := average_object_extruder_dmr
        first_object_layer_bridging := true }
  else params

/-- Slicing.cpp lines 70–86, the raft offset block: raise the object print
`z` range by the raft thickness plus the support contact distance.  The
source binds the pair `(print_z, params)` once; here the shared
`raft_layers() == 1` condition selects each component separately, which is
the same value. -/
def createRaftShift (object_config : PrintObjectConfig)
    (first_layer_height : ℚ) (params : SlicingParameters) : SlicingParameters :=
  if params.has_raft then
    let print_z :=
      if params.raft_layers = 1 then
        first_layer_height + object_config.support_material_contact_distance
      else
        first_layer_height + object_config.support_material_contact_distance +
          (params.base_raft_layers - 1 : ℤ) * params.base_raft_layer_height +
          (params.interface_raft_layers - 1 : ℤ) * params.interface_raft_layer_height +
          params.contact_raft_layer_height
    let params' :=
      if params.raft_layers = 1 then
        { params with contact_raft_layer_height := first_layer_height }
      else params
    { params' with
      object_print_z_min := print_z
      object_print_z_max := params'.object_print_z_max + print_z }
  else params

/-- Slicing.cpp lines 88–101, the layer-height bound block: derive the
min/max layer heights from the nominal and first-layer heights, force the
minimum to the hard-coded `0.05` floor, and widen the maximum to
`0.75 ×` the smallest object-extruder nozzle diameter when extruders are
known. -/
def createHeightBounds (print_config : PrintConfig) (first_layer_height : ℚ)
    (object_extruders : List ℕ) (params : SlicingParameters) : SlicingParameters :=
  let params' :=
    { params with
      min_layer_height := min params.layer_height first_layer_height
      max_layer_height := max params.layer_height first_layer_height }
  let params'' := { params' with min_layer_height := 1/20 }
  if object_extruders ≠ [] then
    let min_object_extruder_dmr :=
      (object_extruders.map (fun i => get_at print_config.nozzle_diameter (i : ℤ))).foldl
        min 1000000
    { params'' with
      max_layer_height :=
        max (max params''.layer_height first_layer_height)
          (3/4 * min_object_extruder_dmr) }
  else params''

/-- `SlicingParameters::create_from_config`, Slicing.cpp lines 21–104: the
initial field assignments of lines 34–39 followed by the three sequential
blocks above.  The `object_extruders` set is modelled as a duplicate-free
list of extruder indices (the source iterates a `std::set`; only sum, size,
minimum and emptiness are consumed). -/
def SlicingParameters.create_from_config (print_config : PrintConfig)
    (object_config : PrintObjectConfig) (object_height : ℚ)
    (object_extruders : List ℕ) : SlicingParameters :=
  let first_layer_height := resolvedFirstLayerHeight object_config
  let params : SlicingParameters :=
    { layer_height := object_config.layer_height
      first_object_layer_height := first_layer_height
      object_print_z_min := 0
      object_print_z_max := object_height
      base_raft_layers := object_config.raft_layers }
  createHeightBounds print_config first_layer_height object_extruders
    (createRaftShift object_config first_layer_height
      (createRaftSplit print_config object_config object_extruders params))

/-! ## Interpolating a profile at a `z` (lines 294–308)

Step 1 of `adjust_layer_height_profile`: the current layer height at `z`,
starting from the default `slicing_params.layer_height` and scanning the
profile for the first sample pair whose successor `z` exceeds `z` (taking the
final sample's height when the scan reaches the last pair).  The index loop
is rendered structurally, two flat entries at a time. -/

/-- Slicing.cpp lines 294–308: the profile's interpolated height at `z`. -/
def profile_interpolate (sp : SlicingParameters) : List ℚ → ℚ → ℚ
  | z1 :: h1 :: z2 :: h2 :: rest, z =>
    if z2 > z then lerp h1 h2 ((z - z1) / (z2 - z1))
    else profile_interpolate sp (z2 :: h2 :: rest) z
  | [_, h], _ => h
  | _, _ => sp.layer_height

/-! ## `layer_height_profile_from_ranges` (lines 108–166) -/

/-- One step of the range-trimming loop, Slicing.cpp lines 120–130: clip the
range's high end to the object height, its low end to the previous emitted
range's high end, and drop ranges narrower than `EPSILON`. -/
def trimStep (sp : SlicingParameters) (acc : List ((ℚ × ℚ) × ℚ))
    (r : (ℚ × ℚ) × ℚ) : List ((ℚ × ℚ) × ℚ) :=
  let lo := match acc.getLast? with
    | none => r.1.1
    | some back => max r.1.1 back.1.2
  let hi := min r.1.2 sp.object_print_z_height
  if lo + EPSILON < hi then acc ++ [((lo, hi), r.2)] else acc

/-- Slicing.cpp lines 113–130: the non-overlapping trimmed ranges, seeded
with the first-layer range when the first object layer height is fixed.  The
source iterates a `std::map` ordered lexicographically by `(lo, hi)`; the
embedding takes the ranges as an already-ordered list. -/
def trimRanges (sp : SlicingParameters)
    (layer_height_ranges : List ((ℚ × ℚ) × ℚ)) : List ((ℚ × ℚ) × ℚ) :=
  layer_height_ranges.foldl (trimStep sp)
    (if sp.first_object_layer_height_fixed then
      [((0, sp.first_object_layer_height), sp.first_object_layer_height)]
    else [])

/-- One step of the profile-emission loop, Slicing.cpp lines 135–153: insert
a nominal-height filler segment when a gap precedes the range, then the
range's own constant-height segment. -/
def profStep (sp : SlicingParameters) (acc : List ℚ) (r : (ℚ × ℚ) × ℚ) : List ℚ :=
  let last_z := acc.getD (acc.length - 2) 0
  acc ++
    (if last_z + EPSILON < r.1.1 then
      [last_z, sp.layer_height, r.1.1, sp.layer_height]
    else []) ++
    [r.1.1, r.2, r.1.2, r.2]

/-- `layer_height_profile_from_ranges`, Slicing.cpp lines 108–166. -/
def layer_height_profile_from_ranges (sp : SlicingParameters)
    (layer_height_ranges : List ((ℚ × ℚ) × ℚ)) : List ℚ :=
  let prof := (trimRanges sp layer_height_ranges).foldl (profStep sp) []
  let last_z := prof.getD (prof.length - 2) 0
  if last_z < sp.object_print_z_height then
    prof ++ [last_z, sp.layer_height, sp.object_print_z_height, sp.layer_height]
  else prof

/-! ## `layer_height_profile_adaptive` (lines 170–261)

The `SlicingAdaptive` cusp-height computation lives outside the sources under
review; per the spec (§1 OUT OF SCOPE) it is consumed as an opaque oracle
`cusp_height(z, cusp_value, facet_hint) → height`, modelled as a function
`ℚ → ℚ` of the slice `z` (the cusp tolerance is the fixed constant `0.2` and
the facet hint only affects traversal locality, not the returned value). -/

/-- The growth loop of Slicing.cpp lines 200–252 (the commented-out
horizontal-surface, z-gradation and per-range blocks are dead code).  `fuel`
bounds the iteration count; the caller passes enough fuel for every source
run whose heights stay at or above the `0.05` floor (the C++ loop itself
fails to terminate when the oracle returns a non-positive height). -/
def adaptGo (sp : SlicingParameters) (cusp : ℚ → ℚ) :
    ℕ → ℚ → ℚ → List ℚ → List ℚ
  | 0, _, _, acc => acc
  | fuel + 1, slice_z, height, acc =>
    if slice_z - height ≤ sp.object_print_z_height then
      let h := min (cusp slice_z) 999
      adaptGo sp cusp fuel (slice_z + h) h (acc ++ [slice_z, h, slice_z + h, h])
    else acc

/-- A kernel-computable upper bound on a rational: `q ≤ q.num.toNat + 1`
(the denominator is at least 1).  Used to compute loop fuel; fuel only needs
to exceed the iteration count of the modelled loop, so any upper bound is
sound. -/
def iterBound (q : ℚ) : ℕ := q.num.toNat + 1

theorem le_iterBound (q : ℚ) : q ≤ (iterBound q : ℚ) := by
  unfold iterBound
  push_cast
  rcases le_or_lt q.num 0 with h | h
  · have hq : q ≤ 0 := by
      by_contra hq
      have h2 : 0 < q.num := Rat.num_pos.mpr (lt_of_not_le hq)
      omega
    have h3 : (0:ℚ) ≤ (q.num.toNat : ℚ) + 1 := by positivity
    linarith
  · have hq : 0 ≤ q := Rat.num_nonneg.mp (le_of_lt h)
    have hn : ((q.num.toNat : ℕ) : ℚ) = ((q.num : ℤ) : ℚ) := by
      have h4 : ((q.num.toNat : ℕ) : ℤ) = q.num := Int.toNat_of_nonneg (le_of_lt h)
      exact_mod_cast congrArg (fun x : ℤ => (x : ℚ)) h4
    rw [hn]
    have hden1 : (1 : ℚ) ≤ (q.den : ℚ) := by
      have h5 : 1 ≤ q.den := q.den_pos
      exact_mod_cast h5
    have hden0 : ((q.den : ℕ) : ℚ) ≠ 0 := by positivity
    have hnum : ((q.num : ℤ) : ℚ) = q * (q.den : ℚ) :=
      (div_eq_iff hden0).mp (Rat.num_div_den q)
    nlinarith

/-- Fuel for `adaptGo`: with every height at least the `0.05` hard floor the
loop runs at most `20·(object height + 999) + 1` times. -/
def adaptFuel (sp : SlicingParameters) : ℕ :=
  iterBound ((sp.object_print_z_height + 1000) * 20) + 4

/-- `layer_height_profile_adaptive`, Slicing.cpp lines 170–261. -/
def layer_height_profile_adaptive (sp : SlicingParameters) (cusp : ℚ → ℚ) :
    List ℚ :=
  let init := [0, sp.first_object_layer_height] ++
    (if sp.first_object_layer_height_fixed then
      [sp.first_object_layer_height, sp.first_object_layer_height]
    else [])
  let prof := adaptGo sp cusp (adaptFuel sp)
    sp.first_object_layer_height sp.first_object_layer_height init
  let last := max sp.first_object_layer_height (prof.getD (prof.length - 2) 0)
  prof ++ [last, sp.first_object_layer_height,
    sp.object_print_z_height, sp.first_object_layer_height]

/-! ## `adjust_layer_height_profile` (lines 276–408) -/

/-- The index-advance loop `while (i < size && profile[i] < bound) i += 2`
of Slicing.cpp lines 337–338 and 382–383.  The first argument is fuel
(structural recursion so that the kernel can evaluate the definition); the
index grows by 2 while staying below `p.length`, so fuel `p.length` is
enough for the loop to run to completion on every input. -/
def adjAdvance (p : List ℚ) (bound : ℚ) : ℕ → ℕ → ℕ
  | 0, i => i
  | fuel + 1, i =>
    if i < p.length ∧ p.getD i 0 < bound then adjAdvance p bound fuel (i + 2) else i

/-- The band-resampling loop of Slicing.cpp lines 346–385, with the source's
transcendental raised-cosine weight factor abstracted: `c t` stands for
`cos(2π·t)` (not representable over `ℚ`), so the source's
`0.5 + 0.5·cos(2π·(zz−z)/band_width)` is `1/2 + 1/2 · c ((zz−z)/band_width)`.
Every theorem below either holds for all `c` or never evaluates the weight.
State: segment index `i`, resample coordinate `zz`, output `acc`; the loop
returns all three (the C++ locals stay in scope after the loop). -/
def adjLoop (sp : SlicingParameters) (p : List ℚ) (z delta band : ℚ)
    (action : ℤ) (c : ℚ → ℚ) (hi : ℚ) :
    ℕ → ℕ → ℚ → List ℚ → ℕ × ℚ × List ℚ
  | 0, i, zz, acc => (i, zz, acc)
  | fuel + 1, i, zz, acc =>
    if zz < hi then
      let next := i + 2
      let z1 := p.getD i 0
      let h1 := p.getD (i + 1) 0
      let height :=
        if next < p.length then
          lerp h1 (p.getD (next + 1) 0) ((zz - z1) / (p.getD next 0 - z1))
        else h1
      let weight := if |zz - z| < band / 2 then 1/2 + 1/2 * c ((zz - z) / band) else 0
      let height :=
        if action = 1 then
          let d := height - sp.layer_height
          let step := weight * delta
          let step := if |d| > step then (if d > 0 then -step else step) else -d
          height + step
        else height + weight * delta
      let acc :=
        if acc.getD (acc.length - 2) 0 + EPSILON < zz then
          acc ++ [zz, clamp sp.min_layer_height sp.max_layer_height height]
        else acc
      let zz1 := zz + 1/10
      adjLoop sp p z delta band action c hi fuel
        (adjAdvance p zz1 p.length next - 2) zz1 acc
    else (i, zz, acc)

/-- Fuel for `adjLoop`: the resample coordinate advances by the fixed
`z_step = 0.1` each iteration from `lo` towards `hi`. -/
def adjFuel (lo hi : ℚ) : ℕ := iterBound ((hi - lo) * 10)

/-- Steps 3 of `adjust_layer_height_profile` (Slicing.cpp lines 332–395),
entered with the already-clamped `delta` of step 2: densify the band
`[lo, hi]` around `z`, bridge a remaining gap, and stitch the untouched
suffix back on.  `i − 2` at `i = 0` (line 339, reachable when `lo ≤
profile[0]`) wraps `size_t` in C++ and leads to out-of-bounds reads; here `ℕ`
subtraction truncates, so theorems about this path assume `profile[0] < lo`. -/
def adjustCore (sp : SlicingParameters) (p : List ℚ) (z delta band : ℚ)
    (action : ℤ) (c : ℚ → ℚ) : List ℚ :=
  let span_lo := if sp.first_object_layer_height_fixed then
    sp.first_object_layer_height else 0
  let lo := max span_lo (z - band / 2)
  let hi := min sp.object_print_z_height (z + band / 2)
  let i0 := adjAdvance p lo p.length 0 - 2
  let front := p.take (i0 + 2)
  let r := adjLoop sp p z delta band action c hi (adjFuel lo hi) i0 lo front
  let i2 := r.1 + 2
  let acc := r.2.2
  if i2 < p.length then
    let acc :=
      if acc.getD (acc.length - 2) 0 + 1/10 < p.getD i2 0 then
        acc ++ [acc.getD (acc.length - 2) 0 + 1/10, p.getD (i2 + 1) 0]
      else acc
    acc ++ p.drop i2
  else acc

/-- `adjust_layer_height_profile`, Slicing.cpp lines 276–408 (the in-place
mutation of the profile argument is rendered as returning the new profile;
the early `return`s of lines 289–290, 315–316, 319–320 and 327–328 return
the profile unchanged).  `c` abstracts `cos(2π·)` as in `adjLoop`. -/
def adjust_layer_height_profile (sp : SlicingParameters) (c : ℚ → ℚ)
    (p : List ℚ) (z layer_thickness_delta band_width : ℚ) (action : ℤ) :
    List ℚ :=
  let span_lo := if sp.first_object_layer_height_fixed then
    sp.first_object_layer_height else 0
  if z < span_lo ∨ z > sp.object_print_z_height then p
  else
    let current := profile_interpolate sp p z
    if action = 1 then
      let d := min |layer_thickness_delta| |sp.layer_height - current|
      if d < EPSILON then p
      else adjustCore sp p z d band_width action c
    else
      if 0 < layer_thickness_delta then
        if sp.max_layer_height - EPSILON ≤ current then p
        else adjustCore sp p z
          (min layer_thickness_delta (sp.max_layer_height - current)) band_width action c
      else
        if current ≤ sp.min_layer_height + EPSILON then p
        else adjustCore sp p z
          (max layer_thickness_delta (sp.min_layer_height - current)) band_width action c

/-! ## `generate_object_layers` (lines 411–462) -/

/-- The segment-advance loop of Slicing.cpp lines 433–438: move the profile
index forward while the probe `slice_z` has passed the next sample.  The
first argument is fuel (structural recursion so that the kernel can evaluate
the definition); fuel `p.length` is enough on every input. -/
def genWalk (p : List ℚ) (slice_z : ℚ) : ℕ → ℕ → ℕ
  | 0, idx => idx
  | fuel + 1, idx =>
    if idx + 2 < p.length ∧ p.getD (idx + 2) 0 ≤ slice_z then
      genWalk p slice_z fuel (idx + 2)
    else idx

/-- The layer-emission loop of Slicing.cpp lines 429–458.  State: the
current layer bottom `print_z`, the persistent profile index `idx`, and the
emitted flat `(bottom, top)` list `acc`. -/
def genGo (sp : SlicingParameters) (p : List ℚ) :
    ℕ → ℚ → ℕ → List ℚ → List ℚ
  | 0, _, _, acc => acc
  | fuel + 1, print_z, idx, acc =>
    if print_z + sp.min_layer_height / 2 < sp.object_print_z_height then
      let slice_z := print_z + sp.min_layer_height / 2
      let idx1 := if idx < p.length then genWalk p slice_z p.length idx else idx
      let height :=
        if idx < p.length then
          if idx1 + 2 < p.length then
            lerp (p.getD (idx1 + 1) 0) (p.getD (idx1 + 3) 0)
              ((slice_z - p.getD idx1 0) / (p.getD (idx1 + 2) 0 - p.getD idx1 0))
          else p.getD (idx1 + 1) 0
        else sp.min_layer_height
      if sp.object_print_z_height ≤ print_z + height / 2 then acc
      else genGo sp p fuel (print_z + height) idx1 (acc ++ [print_z, print_z + height])
    else acc

/-- Fuel for `genGo`: each emitted layer advances `print_z` by at least
`min_layer_height`, and the loop runs only while `print_z` is below the
object height. -/
def genFuel (sp : SlicingParameters) (z0 : ℚ) : ℕ :=
  iterBound ((sp.object_print_z_height - z0) / sp.min_layer_height)

/-- `generate_object_layers`, Slicing.cpp lines 411–462. -/
def generate_object_layers (sp : SlicingParameters) (p : List ℚ) : List ℚ :=
  let z0 := if sp.first_object_layer_height_fixed then
    sp.first_object_layer_height else 0
  let init : List ℚ := if sp.first_object_layer_height_fixed then
    [0, sp.first_object_layer_height] else []
  genGo sp p (genFuel sp z0) z0 0 init

/-! ## List infrastructure for the pair view -/

theorem head?_append_left {α : Type} (l1 l2 : List α) (h : l1 ≠ []) :
    (l1 ++ l2).head? = l1.head? := by
  cases l1 with
  | nil => exact absurd rfl h
  | cons a t => rfl

theorem toPairs_append : ∀ (l1 l2 : List ℚ), l1.length % 2 = 0 →
    toPairs (l1 ++ l2) = toPairs l1 ++ toPairs l2
  | [], _, _ => rfl
  | [a], _, h => by simp at h
  | a :: b :: t, l2, h => by
    have ih := toPairs_append t l2 (by simp only [List.length_cons] at h; omega)
    simp only [List.cons_append, toPairs, List.append_eq, ih]

/-- The second-to-last and last entries of `q ++ [a, b]` are `a` and `b`. -/
theorem getD_append_pair (q : List ℚ) (a b : ℚ) :
    (q ++ [a, b]).getD q.length 0 = a ∧ (q ++ [a, b]).getD (q.length + 1) 0 = b := by
  induction q with
  | nil => exact ⟨rfl, rfl⟩
  | cons x t ih => simpa [List.getD_cons_succ] using ih

theorem lastZ_append_pair (q : List ℚ) (a b : ℚ) :
    (q ++ [a, b]).getD ((q ++ [a, b]).length - 2) 0 = a := by
  have h := (getD_append_pair q a b).1
  simpa [List.length_append] using h

theorem lastH_append_pair (q : List ℚ) (a b : ℚ) :
    (q ++ [a, b]).getD ((q ++ [a, b]).length - 1) 0 = b := by
  have h := (getD_append_pair q a b).2
  simpa [List.length_append] using h

theorem toPairs_getLast?_append_pair (q : List ℚ) (a b : ℚ)
    (h : q.length % 2 = 0) : (toPairs (q ++ [a, b])).getLast? = some (a, b) := by
  rw [toPairs_append q [a, b] h]
  exact List.getLast?_concat _

/-- Every nonempty even-length flat list ends in a final `[z, h]` pair. -/
theorem exists_last_pair : ∀ (p : List ℚ), p.length % 2 = 0 → p ≠ [] →
    ∃ q a b, p = q ++ [a, b] ∧ q.length % 2 = 0
  | [], _, hne => absurd rfl hne
  | [_], h, _ => by simp at h
  | [a, b], _, _ => ⟨[], a, b, rfl, rfl⟩
  | [_, _, _], h, _ => by simp only [List.length_cons, List.length_nil] at h; omega
  | a :: b :: c :: d :: t, h, _ => by
    obtain ⟨q, x, y, hq, hqe⟩ := exists_last_pair (c :: d :: t)
      (by simp only [List.length_cons] at h ⊢; omega) (by simp)
    exact ⟨a :: b :: q, x, y, by rw [hq]; rfl,
      by simp only [List.length_cons]; omega⟩

/-- The last pair of the pair view is the flat list's final two entries. -/
theorem toPairs_getLast? (p : List ℚ) (h : p.length % 2 = 0) (hne : p ≠ []) :
    (toPairs p).getLast? = some (p.getD (p.length - 2) 0, p.getD (p.length - 1) 0) := by
  obtain ⟨q, a, b, rfl, hqe⟩ := exists_last_pair p h hne
  rw [toPairs_getLast?_append_pair q a b hqe, lastZ_append_pair, lastH_append_pair]

theorem toPairs_take : ∀ (k : ℕ) (p : List ℚ),
    toPairs (p.take (2 * k)) = (toPairs p).take k
  | 0, p => by simp [toPairs]
  | k + 1, [] => by simp [toPairs]
  | k + 1, [a] => by simp [toPairs]
  | k + 1, a :: b :: t => by
    have h2 : 2 * (k + 1) = 2 * k + 1 + 1 := by ring
    rw [h2]
    simp only [List.take_succ_cons, toPairs]
    rw [toPairs_take k t]

theorem toPairs_drop : ∀ (k : ℕ) (p : List ℚ),
    toPairs (p.drop (2 * k)) = (toPairs p).drop k
  | 0, p => by simp
  | k + 1, [] => by simp [toPairs]
  | k + 1, [a] => by simp [toPairs]
  | k + 1, a :: b :: t => by
    have h2 : 2 * (k + 1) = 2 * k + 1 + 1 := by ring
    rw [h2]
    simp only [List.drop_succ_cons, toPairs]
    rw [toPairs_drop k t]

theorem lerp_bounds {a b h1 h2 t : ℚ} (ha1 : a ≤ h1) (hb1 : h1 ≤ b)
    (ha2 : a ≤ h2) (hb2 : h2 ≤ b) (ht0 : 0 ≤ t) (ht1 : t ≤ 1) :
    a ≤ lerp h1 h2 t ∧ lerp h1 h2 t ≤ b := by
  unfold lerp
  constructor <;> nlinarith

/-- Boolean check for non-decreasing first components, kernel-computable
(the generic `List.decidableChain'` instance does not reduce). -/
def zSortedB : List (ℚ × ℚ) → Bool
  | [] => true
  | [_] => true
  | a :: b :: t => decide (a.1 ≤ b.1) && zSortedB (b :: t)

theorem zSortedB_iff : ∀ l : List (ℚ × ℚ),
    zSortedB l = true ↔ List.Chain' (fun a b : ℚ × ℚ => a.1 ≤ b.1) l
  | [] => by simp [zSortedB]
  | [a] => by simp [zSortedB]
  | a :: b :: t => by
    have ih := zSortedB_iff (b :: t)
    simp [zSortedB, List.chain'_cons, ih, and_comm]

instance zChain_decidable (p : List ℚ) : Decidable (zChain p) :=
  decidable_of_iff (zSortedB (toPairs p) = true) (by rw [zSortedB_iff]; exact Iff.rfl)

instance profile_invariants_decidable (sp : SlicingParameters) (p : List ℚ) :
    Decidable (profile_invariants sp p) := by
  unfold profile_invariants; infer_instance

/-! ## Concrete parameter values used by the counterexamples below -/

/-- Parameters for the C1 counterexample: nominal and maximum height `0.3`,
minimum `0.05`, bridging (non-fixed) first layer, object height `0.2`. -/
def spC1 : SlicingParameters :=
  { layer_height := 3/10, first_object_layer_height := 3/10,
    min_layer_height := 1/20, max_layer_height := 3/10,
    object_print_z_min := 0, object_print_z_max := 1/5,
    first_object_layer_bridging := true }

/-- Parameters for the C2 counterexample: nominal `0.2`, bounds
`[0.05, 0.3]`, fixed first layer `0.2`, object height `1`. -/
def spC2 : SlicingParameters :=
  { layer_height := 1/5, first_object_layer_height := 1/5,
    min_layer_height := 1/20, max_layer_height := 3/10,
    object_print_z_min := 0, object_print_z_max := 1 }

/-- Parameters for the C3 counterexample: bridging first layer (no seeded
first-layer range), object height `10`. -/
def spC3 : SlicingParameters :=
  { layer_height := 1/5, first_object_layer_height := 1/5,
    min_layer_height := 1/20, max_layer_height := 1,
    object_print_z_min := 0, object_print_z_max := 10,
    first_object_layer_bridging := true }

/-- Parameters for the C4 failing input: bounds `[0.05, 0.3]`, bridging
first layer, object height `1`. -/
def spC4 : SlicingParameters :=
  { layer_height := 1/5, first_object_layer_height := 1/5,
    min_layer_height := 1/20, max_layer_height := 3/10,
    object_print_z_min := 0, object_print_z_max := 1,
    first_object_layer_bridging := true }

/-- Parameters for the C6 counterexample: bounds `[0.05, 0.65]`, bridging
first layer, object height `2`. -/
def spC6 : SlicingParameters :=
  { layer_height := 1/5, first_object_layer_height := 1/5,
    min_layer_height := 1/20, max_layer_height := 13/20,
    object_print_z_min := 0, object_print_z_max := 2,
    first_object_layer_bridging := true }

/-- Profile for the C6 counterexample: height `0.2` on `[0, 1]`, then a step
to `0.5` on `[1, 2]` (the duplicated `z = 1` breakpoint encodes the step). -/
def pC6 : List ℚ := [0, 1/5, 1, 1/5, 1, 1/2, 2, 1/2]

/-- Parameters for the C8 counterexample: bounds `[0.05, 0.3]`, fixed first
layer `0.2`, object height `1`. -/
def spC8 : SlicingParameters :=
  { layer_height := 1/5, first_object_layer_height := 1/5,
    min_layer_height := 1/20, max_layer_height := 3/10,
    object_print_z_min := 0, object_print_z_max := 1 }

/-- Parameters for the C9 scenario: nominal `0.2`, first layer `0.2` fixed,
no raft, object height `1` (`min_layer_height` at the `0.05` floor,
`max_layer_height = max(nominal, first) = 0.2` as derived with no extruder
set). -/
def spC9 : SlicingParameters :=
  { layer_height := 1/5, first_object_layer_height := 1/5,
    min_layer_height := 1/20, max_layer_height := 1/5,
    object_print_z_min := 0, object_print_z_max := 1 }

/-- Print config for the C7 counterexample: one nozzle of diameter `0.4`. -/
def pcC7 : PrintConfig := { nozzle_diameter := [2/5] }

/-- Object config for the C7 counterexample: configured layer height `0.01`,
below the hard-coded `0.05` floor. -/
def ocC7 : PrintObjectConfig :=
  { layer_height := 1/100, first_layer_height := ⟨0, false⟩, raft_layers := 0,
    support_material_extruder := 1, support_material_interface_extruder := 1,
    support_material_contact_distance := 1/10 }

/-! ## Claim C1 — layer boundary generator output bounds -/

/-- C1 counterexample: on `spC1` and the invariant-satisfying profile
`[0, 0.3, 0.2, 0.3]` (constant height `0.3`, object height `0.2`),
`generate_object_layers` emits the single layer `(0, 0.3)`: its top exceeds
`object_print_z_height() = 0.2`, and the total thickness `0.3` misses the
object height by `0.1 > min_layer_height = 0.05`, so both the
`top_last ≤ object_print_z_height()` and the one-`min_layer_height` coverage
conjuncts of the claim fail. -/
theorem generate_object_layers_top_counterexample :
    generate_object_layers spC1 [0, 3/10, 1/5, 3/10] = [0, 3/10] ∧
    profile_invariants spC1 [0, 3/10, 1/5, 3/10] ∧
    0 < spC1.min_layer_height ∧
    ¬ ((3 : ℚ)/10 ≤ spC1.object_print_z_height) ∧
    ¬ (|((3 : ℚ)/10 - 0) - spC1.object_print_z_height| ≤ spC1.min_layer_height) := by
  with_unfolding_all decide

/-! ## Claim C2 — range-builder output bounds -/

/-- C2 counterexample: the range builder copies the user range's height
`0.7` into the profile unclamped, so with `max_layer_height = 0.3` the
"every height lies in `[min_layer_height, max_layer_height]`" conjunct
fails. -/
theorem from_ranges_height_bound_counterexample :
    ((3:ℚ)/10, (7:ℚ)/10) ∈
      toPairs (layer_height_profile_from_ranges spC2 [((3/10, 3/5), 7/10)]) ∧
    ¬ ((7:ℚ)/10 ≤ spC2.max_layer_height) := by
  with_unfolding_all decide

/-! ## Claim C3 — overlap tie-break -/

/-- C3 counterexample: ranges `[0,5]→0.1` and `[3,6]→0.3` overlap on
`[3,5]`; the profile's height at `z = 4` is `0.1`, the height of the range
encountered EARLIER in sorted order, not the later range's `0.3`. -/
theorem from_ranges_overlap_counterexample :
    profile_interpolate spC3
      (layer_height_profile_from_ranges spC3 [((0, 5), 1/10), ((3, 6), 3/10)]) 4
      = 1/10 ∧ ((1:ℚ)/10 ≠ 3/10) := by
  with_unfolding_all decide

/-! ## Claim C4 — editor post-conditions (code bug) -/

/-- C4: evaluation of the code at the failing input.  On the
invariant-satisfying 4-element profile `[0, 0.2, 0.00009, 0.2]` with
`z = 0.00008`, `delta = 0.1`, `band_width = 0.0001`, `action = 0` (free
mode), the resampling loop's first `0.1` step carries the segment index past
the end of the profile, so the entire suffix is dropped and the function
returns the 2-element profile `[0, 0.2]` — violating the function's own
`assert(layer_height_profile.size() > 2)` at Slicing.cpp line 397.  The
weight function argument is irrelevant here (the single resample point sits
exactly on the band edge, where the weight branch is not taken). -/
theorem adjust_profile_drops_suffix_bug :
    adjust_layer_height_profile spC4 (fun _ => 0) [0, 1/5, 9/100000, 1/5]
        (1/12500) (1/10) (1/10000) 0 = [0, 1/5] ∧
    profile_invariants spC4 [0, 1/5, 9/100000, 1/5] ∧
    ¬ (2 < ([0, (1:ℚ)/5] : List ℚ).length) := by
  with_unfolding_all decide

/-! ## Claim C6 — delta-zero edits -/

/-- C6 counterexample: on the invariant-satisfying step profile `pC6`
(height `0.2` up to `z = 1`, `0.5` after), an edit at `z = 1` with
`delta = 0`, `band_width = 0.4`, free mode resamples the band on the `0.1`
grid, drops the duplicated breakpoint at `z = 1`, and moves the interpolated
height at `z = 1` from `0.5` to `0.2` — a change of `0.3`, far above
`EPSILON`. -/
theorem adjust_delta_zero_counterexample :
    profile_invariants spC6 pC6 ∧
    ¬ (|profile_interpolate spC6
          (adjust_layer_height_profile spC6 (fun _ => 0) pC6 1 0 (2/5) 0) 1 -
        profile_interpolate spC6 pC6 1| ≤ EPSILON) := by
  with_unfolding_all decide

/-! ## Claim C8 — adaptive builder shape -/

/-- The constant cusp-height oracle `0.25` used by the C8 counterexample. -/
def cuspC8 : ℚ → ℚ := fun _ => 1/4

/-- C8 counterexample: with the constant cusp oracle `0.25` (within
`[min_layer_height, max_layer_height] = [0.05, 0.3]`) on an object of height
`1`, the growth loop overshoots to `z = 1.45` and the closing sentinel pair
is placed back at `z = object_print_z_height() = 1`, so the profile's `z`
values are NOT non-decreasing. -/
theorem adaptive_monotonic_counterexample :
    (∀ z : ℚ, spC8.min_layer_height ≤ cuspC8 z ∧ cuspC8 z ≤ spC8.max_layer_height) ∧
    ¬ zChain (layer_height_profile_adaptive spC8 cuspC8) := by
  constructor
  · intro z
    show spC8.min_layer_height ≤ 1/4 ∧ (1:ℚ)/4 ≤ spC8.max_layer_height
    with_unfolding_all decide
  · with_unfolding_all decide

/-! ## Claim C9 — concrete scenario -/

/-- C9 counterexample: with nominal `0.2`, fixed first layer `0.2`, no raft,
object height `1` and no ranges, `layer_height_profile_from_ranges` does NOT
return `[0, 0.2, 1.0, 0.2]`: the seeded first-layer range and the filler
each contribute a segment, giving an 8-element profile. -/
theorem scenario_profile_counterexample :
    layer_height_profile_from_ranges spC9 [] ≠ [0, 1/5, 1, 1/5] := by
  with_unfolding_all decide

/-- C9 amended: the range builder returns the (piecewise-linearly
equivalent) 8-element profile `[0, 0.2, 0.2, 0.2, 0.2, 0.2, 1, 0.2]`, and
`generate_object_layers` on it yields exactly 5 layers of thickness `0.2`
contiguously spanning `[0, 1]`. -/
theorem scenario_layers :
    layer_height_profile_from_ranges spC9 [] =
      [0, 1/5, 1/5, 1/5, 1/5, 1/5, 1, 1/5] ∧
    generate_object_layers spC9 [0, 1/5, 1/5, 1/5, 1/5, 1/5, 1, 1/5] =
      [0, 1/5, 1/5, 2/5, 2/5, 3/5, 3/5, 4/5, 4/5, 1] := by
  with_unfolding_all decide

/-! ## Claim C7 — parameter deriver invariants -/

/-- C7 counterexample: `create_from_config` overrides `min_layer_height`
with the hard-coded floor `0.05` (Slicing.cpp line 92), so a configured
layer height of `0.01` yields `min_layer_height > layer_height`, violating
the claimed invariant. -/
theorem create_from_config_min_counterexample :
    ¬ ((SlicingParameters.create_from_config pcC7 ocC7 1 []).min_layer_height ≤
        (SlicingParameters.create_from_config pcC7 ocC7 1 []).layer_height) := by
  with_unfolding_all decide

theorem create_min_layer_height_eq (pc : PrintConfig) (oc : PrintObjectConfig)
    (oh : ℚ) (extr : List ℕ) :
    (SlicingParameters.create_from_config pc oc oh extr).min_layer_height = 1/20 := by
  dsimp only [SlicingParameters.create_from_config, createRaftSplit,
    createRaftShift, createHeightBounds]
  first
    | rfl
    | split_ifs <;> rfl

theorem create_layer_height_eq (pc : PrintConfig) (oc : PrintObjectConfig)
    (oh : ℚ) (extr : List ℕ) :
    (SlicingParameters.create_from_config pc oc oh extr).layer_height =
      oc.layer_height := by
  dsimp only [SlicingParameters.create_from_config, createRaftSplit,
    createRaftShift, createHeightBounds]
  split_ifs <;> rfl

theorem create_z_span_eq (pc : PrintConfig) (oc : PrintObjectConfig)
    (oh : ℚ) (extr : List ℕ) :
    (SlicingParameters.create_from_config pc oc oh extr).object_print_z_max -
      (SlicingParameters.create_from_config pc oc oh extr).object_print_z_min = oh := by
  dsimp only [SlicingParameters.create_from_config, createRaftSplit,
    createRaftShift, createHeightBounds]
  split_ifs <;> dsimp only <;> ring

theorem create_layer_le_max (pc : PrintConfig) (oc : PrintObjectConfig)
    (oh : ℚ) (extr : List ℕ) :
    (SlicingParameters.create_from_config pc oc oh extr).layer_height ≤
      (SlicingParameters.create_from_config pc oc oh extr).max_layer_height := by
  dsimp only [SlicingParameters.create_from_config, createRaftSplit,
    createRaftShift, createHeightBounds]
  split_ifs <;> dsimp only <;>
    first
      | exact le_max_left _ _
      | exact le_trans (le_max_left _ _) (le_max_left _ _)

/-- C7 amended: for every configuration with a non-negative object height
and a configured layer height at or above the hard-coded `0.05` floor (which
`create_from_config` unconditionally installs as `min_layer_height`,
Slicing.cpp line 92), the derived parameters satisfy
`min_layer_height ≤ layer_height ≤ max_layer_height` and
`object_print_z_max ≥ object_print_z_min`. -/
theorem create_from_config_invariants (pc : PrintConfig) (oc : PrintObjectConfig)
    (oh : ℚ) (extr : List ℕ) (hoh : 0 ≤ oh) (hl : 1/20 ≤ oc.layer_height) :
    (SlicingParameters.create_from_config pc oc oh extr).min_layer_height ≤
      (SlicingParameters.create_from_config pc oc oh extr).layer_height ∧
    (SlicingParameters.create_from_config pc oc oh extr).layer_height ≤
      (SlicingParameters.create_from_config pc oc oh extr).max_layer_height ∧
    (SlicingParameters.create_from_config pc oc oh extr).object_print_z_min ≤
      (SlicingParameters.create_from_config pc oc oh extr).object_print_z_max := by
  refine ⟨?_, create_layer_le_max pc oc oh extr, ?_⟩
  · rw [create_min_layer_height_eq, create_layer_height_eq]
    exact hl
  · have h := create_z_span_eq pc oc oh extr
    linarith

/-- C7 witness: the amended invariant at a concrete configuration. -/
theorem create_from_config_invariants_witness :
    (SlicingParameters.create_from_config pcC7
        { ocC7 with layer_height := 1/5 } 1 []).min_layer_height ≤
      (SlicingParameters.create_from_config pcC7
        { ocC7 with layer_height := 1/5 } 1 []).layer_height ∧
    (SlicingParameters.create_from_config pcC7
        { ocC7 with layer_height := 1/5 } 1 []).layer_height ≤
      (SlicingParameters.create_from_config pcC7
        { ocC7 with layer_height := 1/5 } 1 []).max_layer_height ∧
    (SlicingParameters.create_from_config pcC7
        { ocC7 with layer_height := 1/5 } 1 []).object_print_z_min ≤
      (SlicingParameters.create_from_config pcC7
        { ocC7 with layer_height := 1/5 } 1 []).object_print_z_max :=
  create_from_config_invariants pcC7 { ocC7 with layer_height := 1/5 } 1 []
    (by norm_num) (by norm_num)

/-! ## Claim C10 — raft bridging override -/

/-- C10: with raft layers requested, a non-soluble support interface
(non-zero contact distance) and an empty object extruder set,
`create_from_config` sets `first_object_layer_height` to `0` (the running
average over zero nozzle diameters) and `first_object_layer_bridging` to
`true`, discarding the configured first-layer height (Slicing.cpp lines
51–62). -/
theorem create_raft_bridging_override (pc : PrintConfig) (oc : PrintObjectConfig)
    (oh : ℚ) (hr : 0 < oc.raft_layers)
    (hc : oc.support_material_contact_distance ≠ 0) :
    (SlicingParameters.create_from_config pc oc oh []).first_object_layer_height = 0 ∧
    (SlicingParameters.create_from_config pc oc oh []).first_object_layer_bridging = true := by
  dsimp only [SlicingParameters.create_from_config, createRaftSplit,
    createRaftShift, createHeightBounds]
  split_ifs <;> simp_all

/-- C10 witness: the override at a concrete configuration. -/
theorem create_raft_bridging_override_witness :
    (SlicingParameters.create_from_config pcC7
        { ocC7 with raft_layers := 2 } 1 []).first_object_layer_height = 0 ∧
    (SlicingParameters.create_from_config pcC7
        { ocC7 with raft_layers := 2 } 1 []).first_object_layer_bridging = true :=
  create_raft_bridging_override pcC7 { ocC7 with raft_layers := 2 } 1
    (by norm_num) (by norm_num [ocC7])

/-! ## Claim C5 — editor no-op cases -/

/-- C5: `adjust_layer_height_profile` leaves the profile exactly unchanged
in each of the claimed cases: (1) the target `z` lies below a fixed
first-object-layer height or above `object_print_z_height()` (lines
289–290); (2) in free mode (`action = 0`) the delta is positive while the
interpolated height at `z` is within `EPSILON` of `max_layer_height` (lines
314–316); (3) in free mode the delta is negative while the interpolated
height is within `EPSILON` of `min_layer_height` (lines 318–320); (4) in
smoothing mode (`action = 1`) the delta magnitude capped at
`|layer_height − current|` is below `EPSILON` (lines 324–328). -/
theorem adjust_noop_cases (sp : SlicingParameters) (c : ℚ → ℚ) (p : List ℚ)
    (z delta band : ℚ) (action : ℤ) :
    ((sp.first_object_layer_height_fixed = true ∧
        z < sp.first_object_layer_height) ∨ sp.object_print_z_height < z →
      adjust_layer_height_profile sp c p z delta band action = p) ∧
    (action = 0 → 0 < delta →
      |profile_interpolate sp p z - sp.max_layer_height| ≤ EPSILON →
      adjust_layer_height_profile sp c p z delta band action = p) ∧
    (action = 0 → delta < 0 →
      |profile_interpolate sp p z - sp.min_layer_height| ≤ EPSILON →
      adjust_layer_height_profile sp c p z delta band action = p) ∧
    (action = 1 →
      min |delta| |sp.layer_height - profile_interpolate sp p z| < EPSILON →
      adjust_layer_height_profile sp c p z delta band action = p) := by
  refine ⟨?_, ?_, ?_, ?_⟩
  · intro h
    dsimp only [adjust_layer_height_profile]
    rcases h with ⟨hf, hz⟩ | hz
    · rw [if_pos]
      left
      rw [hf]
      exact hz
    · rw [if_pos (Or.inr hz)]
  · intro ha hd hcur
    have hc2 : sp.max_layer_height - EPSILON ≤ profile_interpolate sp p z := by
      have h2 := abs_le.mp hcur
      linarith [h2.1]
    dsimp only [adjust_layer_height_profile]
    split_ifs <;> first | rfl | omega | linarith
  · intro ha hd hcur
    have hc2 : profile_interpolate sp p z ≤ sp.min_layer_height + EPSILON := by
      have h2 := abs_le.mp hcur
      linarith [h2.2]
    dsimp only [adjust_layer_height_profile]
    split_ifs <;> first | rfl | omega | linarith
  · intro ha hcur
    dsimp only [adjust_layer_height_profile]
    split_ifs <;> first | rfl | omega | linarith

/-- C5 witness: each of the four no-op cases at a concrete input. -/
theorem adjust_noop_cases_witness :
    adjust_layer_height_profile spC2 (fun _ => 0) [0, 1/5, 1, 1/5]
        (-1) (1/10) (2/5) 0 = [0, 1/5, 1, 1/5] ∧
    adjust_layer_height_profile spC2 (fun _ => 0) [0, 3/10, 1, 3/10]
        (1/2) (1/10) (2/5) 0 = [0, 3/10, 1, 3/10] ∧
    adjust_layer_height_profile spC2 (fun _ => 0) [0, 1/20, 1, 1/20]
        (1/2) (-(1/10)) (2/5) 0 = [0, 1/20, 1, 1/20] ∧
    adjust_layer_height_profile spC2 (fun _ => 0) [0, 1/5, 1, 1/5]
        (1/2) (1/10) (2/5) 1 = [0, 1/5, 1, 1/5] :=
  ⟨(adjust_noop_cases spC2 (fun _ => 0) [0, 1/5, 1, 1/5] (-1) (1/10) (2/5) 0).1
      (Or.inl ⟨by with_unfolding_all decide, by with_unfolding_all decide⟩),
    (adjust_noop_cases spC2 (fun _ => 0) [0, 3/10, 1, 3/10] (1/2) (1/10) (2/5) 0).2.1
      rfl (by norm_num) (by with_unfolding_all decide),
    (adjust_noop_cases spC2 (fun _ => 0) [0, 1/20, 1, 1/20] (1/2) (-(1/10)) (2/5) 0).2.2.1
      rfl (by norm_num) (by with_unfolding_all decide),
    (adjust_noop_cases spC2 (fun _ => 0) [0, 1/5, 1, 1/5] (1/2) (1/10) (2/5) 1).2.2.2
      rfl (by with_unfolding_all decide)⟩

/-! ## Index-advance loop lemmas -/

theorem adjAdvance_ge (p : List ℚ) (bound : ℚ) :
    ∀ (fuel i : ℕ), i ≤ adjAdvance p bound fuel i
  | 0, i => le_refl i
  | fuel + 1, i => by
    unfold adjAdvance
    split_ifs with h
    · exact le_trans (by omega) (adjAdvance_ge p bound fuel (i + 2))
    · exact le_refl i

theorem adjAdvance_even (p : List ℚ) (bound : ℚ) :
    ∀ (fuel i : ℕ), ∃ k, adjAdvance p bound fuel i = i + 2 * k
  | 0, i => ⟨0, rfl⟩
  | fuel + 1, i => by
    unfold adjAdvance
    split_ifs with h
    · obtain ⟨k, hk⟩ := adjAdvance_even p bound fuel (i + 2)
      exact ⟨k + 1, by omega⟩
    · exact ⟨0, rfl⟩

/-- With fuel at least `(p.length − i)/2` the advance loop runs to
completion, ending at an index past the list or at an entry `≥ bound`. -/
theorem adjAdvance_exit (p : List ℚ) (bound : ℚ) :
    ∀ (fuel i : ℕ), p.length ≤ i + 2 * fuel →
      ¬ (adjAdvance p bound fuel i < p.length ∧
        p.getD (adjAdvance p bound fuel i) 0 < bound)
  | 0, i, hfuel => by
    unfold adjAdvance
    intro hcon
    omega
  | fuel + 1, i, hfuel => by
    unfold adjAdvance
    split_ifs with h
    · exact adjAdvance_exit p bound fuel (i + 2) (by omega)
    · exact h

/-- When the advance loop moved at all, the entry two slots before its final
index is below the bound. -/
theorem adjAdvance_pred_lt (p : List ℚ) (bound : ℚ) :
    ∀ (fuel i : ℕ), i < adjAdvance p bound fuel i →
      p.getD (adjAdvance p bound fuel i - 2) 0 < bound
  | 0, i, h => absurd h (lt_irrefl i)
  | fuel + 1, i, h => by
    rw [adjAdvance] at h ⊢
    split_ifs at h ⊢ with hc
    · rcases lt_or_eq_of_le (adjAdvance_ge p bound fuel (i + 2)) with h2 | h2
      · exact adjAdvance_pred_lt p bound fuel (i + 2) h2
      · rw [← h2]
        simpa using hc.2
    · exact absurd h (lt_irrefl i)

theorem getD_take_lt (p : List ℚ) (k j : ℕ) (h : j < k) :
    (p.take k).getD j 0 = p.getD j 0 := by
  rw [List.getD_eq_getElem?_getD, List.getD_eq_getElem?_getD,
    List.getElem?_take_of_lt h]

/-! ## Claim C6 — delta-zero and zero-band edits (amended) -/

/-- With a zero band width, the resampling band `[lo, hi]` collapses to the
single point `z`, the loop body never runs, and — provided the original
samples bracketing `z` are no more than the `0.1` bridging step apart — the
profile is stitched back together exactly unchanged.  The hypothesis
`p.getD 0 0 < z` keeps the `i -= 2` of line 339 away from the `size_t` wrap
(see the header comment). -/
theorem adjustCore_band_zero (sp : SlicingParameters) (p : List ℚ)
    (z delta : ℚ) (action : ℤ) (c : ℚ → ℚ)
    (hspan : (if sp.first_object_layer_height_fixed = true then
      sp.first_object_layer_height else 0) ≤ z)
    (hzH : z ≤ sp.object_print_z_height)
    (h0 : p.getD 0 0 < z)
    (hgap : adjAdvance p z p.length 0 < p.length →
      p.getD (adjAdvance p z p.length 0) 0 ≤
        p.getD (adjAdvance p z p.length 0 - 2) 0 + 1/10) :
    adjustCore sp p z delta 0 action c = p := by
  have hlo : max (if sp.first_object_layer_height_fixed = true then
      sp.first_object_layer_height else 0) (z - 0 / 2) = z := by
    have h1 : z - 0 / 2 = z := by ring
    rw [h1]
    exact max_eq_right hspan
  have hhi : min sp.object_print_z_height (z + 0 / 2) = z := by
    have h1 : z + 0 / 2 = z := by ring
    rw [h1]
    exact min_eq_right hzH
  have hfuel : adjFuel z z = 1 := by
    unfold adjFuel iterBound
    norm_num
  dsimp only [adjustCore]
  rw [hlo, hhi, hfuel]
  simp only [adjLoop, lt_irrefl, if_false]
  set f0 := adjAdvance p z p.length 0 with hf0
  rcases eq_or_ne p [] with rfl | hp
  · simp [adjAdvance, ← hf0]
  · have hlen : 1 ≤ p.length := List.length_pos.mpr hp
    have hf2 : 2 ≤ f0 := by
      rw [hf0]
      obtain ⟨m, hm⟩ : ∃ m, p.length = m + 1 := ⟨p.length - 1, by omega⟩
      rw [hm]
      simp only [adjAdvance]
      rw [if_pos ⟨by omega, h0⟩]
      exact le_trans (by norm_num) (adjAdvance_ge p z m 2)
    have hi02 : f0 - 2 + 2 = f0 := by omega
    rw [hi02]
    by_cases hflen : f0 < p.length
    · have htl : (p.take f0).length = f0 := by
        rw [List.length_take]
        omega
      have hgd : (p.take f0).getD ((p.take f0).length - 2) 0 = p.getD (f0 - 2) 0 := by
        rw [htl]
        exact getD_take_lt p f0 (f0 - 2) (by omega)
      rw [if_pos hflen, hgd]
      rw [if_neg (by have h3 := hgap hflen; linarith)]
      exact List.take_append_drop f0 p
    · rw [if_neg hflen]
      exact List.take_of_length_le (by omega)

/-- C6 amended: a `delta = 0` edit is exactly a no-op when it hits the
min-height early return (free mode, current height within `EPSILON` of
`min_layer_height`, lines 319–320); and a `band_width = 0` edit — the
claim's `band_width → 0` limit — is exactly a no-op whenever the original
samples bracketing `z` are at most the `0.1` bridging step apart.  In
general neither `delta = 0` nor small bands keep the interpolated height at
`z` within `EPSILON`: the band is resampled on a `0.1` grid and interior
breakpoints are discarded (see the counterexample), so the claim's
ε-stability holds only in these exact no-op cases. -/
theorem adjust_delta_zero_amended (sp : SlicingParameters) (c : ℚ → ℚ)
    (p : List ℚ) (z band delta : ℚ) (action : ℤ) :
    (profile_interpolate sp p z ≤ sp.min_layer_height + EPSILON →
      adjust_layer_height_profile sp c p z 0 band 0 = p) ∧
    (p.getD 0 0 < z →
      (adjAdvance p z p.length 0 < p.length →
        p.getD (adjAdvance p z p.length 0) 0 ≤
          p.getD (adjAdvance p z p.length 0 - 2) 0 + 1/10) →
      adjust_layer_height_profile sp c p z delta 0 action = p) := by
  constructor
  · intro hcur
    dsimp only [adjust_layer_height_profile]
    split_ifs <;> first | rfl | omega | linarith
  · intro h0 hgap
    by_cases h1 : z < (if sp.first_object_layer_height_fixed = true then
        sp.first_object_layer_height else 0) ∨ z > sp.object_print_z_height
    · dsimp only [adjust_layer_height_profile]
      rw [if_pos h1]
    · have h2 : (if sp.first_object_layer_height_fixed = true then
          sp.first_object_layer_height else 0) ≤ z ∧ z ≤ sp.object_print_z_height := by
        push_neg at h1
        exact ⟨h1.1, h1.2⟩
      dsimp only [adjust_layer_height_profile]
      rw [if_neg h1]
      split_ifs <;>
        first
          | rfl
          | exact adjustCore_band_zero sp p z _ action c h2.1 h2.2 h0 hgap

/-- C6 witness: both amended no-op cases at concrete inputs: a `delta = 0`
free-mode edit at the minimum height, and a `band_width = 0` edit on a
profile whose breakpoints around `z` are `0.1` apart. -/
theorem adjust_delta_zero_amended_witness :
    adjust_layer_height_profile spC2 (fun _ => 0) [0, 1/20, 1, 1/20]
        (1/2) 0 (2/5) 0 = [0, 1/20, 1, 1/20] ∧
    adjust_layer_height_profile spC2 (fun _ => 0) [0, 1/5, 1/10, 1/5]
        (1/20) (1/10) 0 0 = [0, 1/5, 1/10, 1/5] :=
  ⟨(adjust_delta_zero_amended spC2 (fun _ => 0) [0, 1/20, 1, 1/20]
      (1/2) (2/5) (1/10) 0).1 (by with_unfolding_all decide),
    (adjust_delta_zero_amended spC2 (fun _ => 0) [0, 1/5, 1/10, 1/5]
      (1/20) 0 (1/10) 0).2 (by with_unfolding_all decide)
      (fun h => by with_unfolding_all decide)⟩

/-! ## Claim C2 — range-builder invariants (amended) -/

/-- A trimmed range as produced by `trimRanges`: width above `EPSILON`, high
end clipped to the object height, non-negative low end that is `0` or above
`EPSILON`, and a height within the layer bounds. -/
def rangeOk (sp : SlicingParameters) (r : (ℚ × ℚ) × ℚ) : Prop :=
  r.1.1 + EPSILON < r.1.2 ∧ r.1.2 ≤ sp.object_print_z_height ∧ 0 ≤ r.1.1 ∧
    (r.1.1 = 0 ∨ EPSILON < r.1.1) ∧
    sp.min_layer_height ≤ r.2 ∧ r.2 ≤ sp.max_layer_height

/-- Consecutive trimmed ranges do not overlap. -/
def rangesChain (T : List ((ℚ × ℚ) × ℚ)) : Prop :=
  List.Chain' (fun a b : (ℚ × ℚ) × ℚ => a.1.2 ≤ b.1.1) T

theorem eq_of_mem_some {α : Type} {a b : α} (h : a ∈ (some b : Option α)) :
    a = b := by
  have h2 : b = a := by simpa [Option.mem_def] using h
  exact h2.symm

theorem trimFold_ok (sp : SlicingParameters) :
    ∀ (ranges acc : List ((ℚ × ℚ) × ℚ)),
      (∀ r ∈ ranges, 0 ≤ r.1.1 ∧ (r.1.1 = 0 ∨ EPSILON < r.1.1) ∧
        sp.min_layer_height ≤ r.2 ∧ r.2 ≤ sp.max_layer_height) →
      (∀ r ∈ acc, rangeOk sp r) → rangesChain acc →
      (∀ r ∈ ranges.foldl (trimStep sp) acc, rangeOk sp r) ∧
        rangesChain (ranges.foldl (trimStep sp) acc)
  | [], acc, _, hacc, hchain => ⟨hacc, hchain⟩
  | r :: rs, acc, hrs, hacc, hchain => by
    have hr := hrs r (List.mem_cons_self r rs)
    have hnew : (∀ x ∈ trimStep sp acc r, rangeOk sp x) ∧
        rangesChain (trimStep sp acc r) := by
      unfold trimStep
      rcases hlast : acc.getLast? with _ | back
      · have hnil : acc = [] := List.getLast?_eq_none_iff.mp hlast
        subst hnil
        simp only [List.getLast?_nil]
        split_ifs with hpush
        · constructor
          · intro x hx
            rw [List.nil_append, List.mem_singleton] at hx
            subst hx
            exact ⟨hpush, min_le_right _ _, hr.1, hr.2.1, hr.2.2.1, hr.2.2.2⟩
          · rw [List.nil_append]
            exact List.chain'_singleton _
        · exact ⟨fun x hx => absurd hx (List.not_mem_nil x), List.chain'_nil⟩
      · have hbOk : rangeOk sp back :=
          hacc back (List.mem_of_mem_getLast? (by rw [hlast]; rfl))
        simp only [hlast]
        split_ifs with hpush
        · constructor
          · intro x hx
            rcases List.mem_append.mp hx with hx | hx
            · exact hacc x hx
            · rw [List.mem_singleton] at hx
              subst hx
              refine ⟨hpush, min_le_right _ _, ?_, ?_, hr.2.2.1, hr.2.2.2⟩
              · exact le_trans hr.1 (le_max_left _ _)
              · right
                have h1 : EPSILON < back.1.2 := by
                  have h2 := hbOk.1
                  have h3 := hbOk.2.2.1
                  linarith
                exact lt_of_lt_of_le h1 (le_max_right _ _)
          · refine List.chain'_append.mpr ⟨hchain, List.chain'_singleton _, ?_⟩
            intro a ha y hy
            rw [hlast] at ha
            rw [eq_of_mem_some ha]
            rw [eq_of_mem_some hy]
            exact le_max_right _ _
        · exact ⟨hacc, hchain⟩
    rw [List.foldl_cons]
    exact trimFold_ok sp rs (trimStep sp acc r)
      (fun x hx => hrs x (List.mem_cons_of_mem r hx)) hnew.1 hnew.2

theorem trimRanges_ok (sp : SlicingParameters)
    (ranges : List ((ℚ × ℚ) × ℚ))
    (hfix : sp.first_object_layer_height_fixed = true →
      EPSILON < sp.first_object_layer_height ∧
      sp.first_object_layer_height ≤ sp.object_print_z_height ∧
      sp.min_layer_height ≤ sp.first_object_layer_height ∧
      sp.first_object_layer_height ≤ sp.max_layer_height)
    (hrs : ∀ r ∈ ranges, 0 ≤ r.1.1 ∧ (r.1.1 = 0 ∨ EPSILON < r.1.1) ∧
      sp.min_layer_height ≤ r.2 ∧ r.2 ≤ sp.max_layer_height) :
    (∀ r ∈ trimRanges sp ranges, rangeOk sp r) ∧
      rangesChain (trimRanges sp ranges) := by
  unfold trimRanges
  split_ifs with hf
  · refine trimFold_ok sp ranges _ hrs ?_ (List.chain'_singleton _)
    intro x hx
    rw [List.mem_singleton] at hx
    subst hx
    obtain ⟨h1, h2, h3, h4⟩ := hfix hf
    exact ⟨by simpa using h1, h2, le_refl 0, Or.inl rfl, h3, h4⟩
  · exact trimFold_ok sp ranges [] hrs
      (fun x hx => absurd hx (List.not_mem_nil x)) List.chain'_nil

theorem profStep_ok (sp : SlicingParameters) (acc : List ℚ) (r : (ℚ × ℚ) × ℚ)
    (hlay1 : sp.min_layer_height ≤ sp.layer_height)
    (hlay2 : sp.layer_height ≤ sp.max_layer_height)
    (hr : rangeOk sp r)
    (heven : acc.length % 2 = 0)
    (hhead : acc = [] ∨ acc.head? = some 0)
    (hchain : zChain acc)
    (hhts : ∀ pr ∈ toPairs acc,
      sp.min_layer_height ≤ pr.2 ∧ pr.2 ≤ sp.max_layer_height)
    (hlast : acc.getD (acc.length - 2) 0 ≤ r.1.1) :
    (profStep sp acc r).length % 2 = 0 ∧
    (profStep sp acc r).head? = some 0 ∧
    zChain (profStep sp acc r) ∧
    (∀ pr ∈ toPairs (profStep sp acc r),
      sp.min_layer_height ≤ pr.2 ∧ pr.2 ≤ sp.max_layer_height) ∧
    (profStep sp acc r).getD ((profStep sp acc r).length - 2) 0 = r.1.2 := by
  obtain ⟨hrw, hrH, hr0, hr0e, hrmin, hrmax⟩ := hr
  have hE : (0:ℚ) < EPSILON := by norm_num [EPSILON]
  have hlink : ∀ x ∈ (toPairs acc).getLast?, x.1 = acc.getD (acc.length - 2) 0 := by
    intro x hx
    rcases eq_or_ne acc [] with rfl | hne
    · simp [toPairs] at hx
    · rw [toPairs_getLast? acc heven hne] at hx
      rw [eq_of_mem_some hx]
  dsimp only [profStep]
  split_ifs with hfill
  · have hshape : acc ++ [acc.getD (acc.length - 2) 0, sp.layer_height,
        r.1.1, sp.layer_height] ++ [r.1.1, r.2, r.1.2, r.2] =
        (acc ++ [acc.getD (acc.length - 2) 0, sp.layer_height, r.1.1,
          sp.layer_height, r.1.1, r.2]) ++ [r.1.2, r.2] := by
      simp
    refine ⟨?_, ?_, ?_, ?_, ?_⟩
    · simp only [List.length_append, List.length_cons, List.length_nil]
      omega
    · rcases hhead with rfl | hh
      · simp [List.getD]
      · rw [List.append_assoc, head?_append_left _ _ (by
          intro hn; rw [hn] at hh; exact Option.noConfusion hh)]
        exact hh
    · unfold zChain
      rw [List.append_assoc, toPairs_append acc _ heven]
      refine List.chain'_append.mpr ⟨hchain, ?_, ?_⟩
      · show List.Chain' _ [(acc.getD (acc.length - 2) 0, sp.layer_height),
          (r.1.1, sp.layer_height), (r.1.1, r.2), (r.1.2, r.2)]
        refine List.chain'_cons.mpr ⟨?_, List.chain'_cons.mpr ⟨le_refl _,
          List.chain'_cons.mpr ⟨?_, List.chain'_singleton _⟩⟩⟩
        · show acc.getD (acc.length - 2) 0 ≤ r.1.1
          linarith
        · show r.1.1 ≤ r.1.2
          linarith
      · intro x hx y hy
        rw [eq_of_mem_some hy]
        show x.1 ≤ acc.getD (acc.length - 2) 0
        rw [hlink x hx]
    · intro pr hpr
      rw [List.append_assoc, toPairs_append acc _ heven] at hpr
      rcases List.mem_append.mp hpr with h | h
      · exact hhts pr h
      · have h2 : pr = (acc.getD (acc.length - 2) 0, sp.layer_height) ∨
            pr = (r.1.1, sp.layer_height) ∨ pr = (r.1.1, r.2) ∨
            pr = (r.1.2, r.2) := by
          simpa [toPairs] using h
        rcases h2 with rfl | rfl | rfl | rfl
        · exact ⟨hlay1, hlay2⟩
        · exact ⟨hlay1, hlay2⟩
        · exact ⟨hrmin, hrmax⟩
        · exact ⟨hrmin, hrmax⟩
    · rw [hshape]
      exact lastZ_append_pair _ _ _
  · have hshape : acc ++ [] ++ [r.1.1, r.2, r.1.2, r.2] =
        (acc ++ [r.1.1, r.2]) ++ [r.1.2, r.2] := by
      simp
    refine ⟨?_, ?_, ?_, ?_, ?_⟩
    · simp only [List.length_append, List.length_cons, List.length_nil]
      omega
    · rcases hhead with rfl | hh
      · have hlo : r.1.1 = 0 := by
          rcases hr0e with h0 | hgt
          · exact h0
          · exfalso
            apply hfill
            simpa [List.getD] using hgt
        simp [hlo]
      · rw [List.append_assoc, head?_append_left _ _ (by
          intro hn; rw [hn] at hh; exact Option.noConfusion hh)]
        exact hh
    · unfold zChain
      rw [List.append_assoc, toPairs_append acc _ heven]
      refine List.chain'_append.mpr ⟨hchain, ?_, ?_⟩
      · show List.Chain' _ [(r.1.1, r.2), (r.1.2, r.2)]
        refine List.chain'_cons.mpr ⟨?_, List.chain'_singleton _⟩
        show r.1.1 ≤ r.1.2
        linarith
      · intro x hx y hy
        rw [eq_of_mem_some hy]
        show x.1 ≤ r.1.1
        rw [hlink x hx]
        exact hlast
    · intro pr hpr
      rw [List.append_assoc, toPairs_append acc _ heven] at hpr
      rcases List.mem_append.mp hpr with h | h
      · exact hhts pr h
      · have h2 : pr = (r.1.1, r.2) ∨ pr = (r.1.2, r.2) := by
          simpa [toPairs] using h
        rcases h2 with rfl | rfl
        · exact ⟨hrmin, hrmax⟩
        · exact ⟨hrmin, hrmax⟩
    · rw [hshape]
      exact lastZ_append_pair _ _ _

theorem profFold_ok (sp : SlicingParameters)
    (hlay1 : sp.min_layer_height ≤ sp.layer_height)
    (hlay2 : sp.layer_height ≤ sp.max_layer_height) :
    ∀ (T : List ((ℚ × ℚ) × ℚ)) (acc : List ℚ),
      (∀ r ∈ T, rangeOk sp r) → rangesChain T →
      acc.length % 2 = 0 → (acc = [] ∨ acc.head? = some 0) → zChain acc →
      (∀ pr ∈ toPairs acc,
        sp.min_layer_height ≤ pr.2 ∧ pr.2 ≤ sp.max_layer_height) →
      acc.getD (acc.length - 2) 0 ≤ sp.object_print_z_height →
      (∀ r1 ∈ T.head?, acc.getD (acc.length - 2) 0 ≤ r1.1.1) →
      (T.foldl (profStep sp) acc).length % 2 = 0 ∧
        (T.foldl (profStep sp) acc = [] ∨
          (T.foldl (profStep sp) acc).head? = some 0) ∧
        zChain (T.foldl (profStep sp) acc) ∧
        (∀ pr ∈ toPairs (T.foldl (profStep sp) acc),
          sp.min_layer_height ≤ pr.2 ∧ pr.2 ≤ sp.max_layer_height) ∧
        (T.foldl (profStep sp) acc).getD
          ((T.foldl (profStep sp) acc).length - 2) 0 ≤ sp.object_print_z_height ∧
        (T.foldl (profStep sp) acc = [] → acc = [])
  | [], acc, _, _, he, hh, hc, hts, hH, _ =>
    ⟨he, hh, hc, hts, hH, fun h => h⟩
  | r :: T', acc, hT, hTchain, he, hh, hc, hts, hH, hhead =>
    by
    have hr : rangeOk sp r := hT r (List.mem_cons_self r T')
    obtain ⟨hse, hsh, hsc, hsts, hslast⟩ :=
      profStep_ok sp acc r hlay1 hlay2 hr he hh hc hts
        (hhead r (by rw [List.head?_cons]; rfl))
    have hne : profStep sp acc r ≠ [] := by
      intro hmt
      rw [hmt] at hsh
      exact Option.noConfusion hsh
    have hchain2 := List.chain'_cons'.mp hTchain
    rw [List.foldl_cons]
    obtain ⟨a1, a2, a3, a4, a5, a6⟩ :=
      profFold_ok sp hlay1 hlay2 T' (profStep sp acc r)
        (fun x hx => hT x (List.mem_cons_of_mem r hx)) hchain2.2 hse
        (Or.inr hsh) hsc hsts (by rw [hslast]; exact hr.2.1)
        (by
          intro r1 h1
          rw [hslast]
          exact hchain2.1 r1 h1)
    exact ⟨a1, a2, a3, a4, a5, fun h => absurd (a6 h) hne⟩

/-- C2 amended: for a positive object height, nominal and (when fixed)
first-layer heights within `[min_layer_height, max_layer_height]`, a fixed
first-layer height above `EPSILON` and below the object height, and override
ranges whose heights lie in `[min_layer_height, max_layer_height]` and whose
low boundaries are non-negative and either `0` or above `EPSILON`, the
profile built by `layer_height_profile_from_ranges` has even length, starts
at `Z = 0`, has non-decreasing `Z` values, ends at
`Z = object_print_z_height()`, and stores only heights within
`[min_layer_height, max_layer_height]`.  (Without the added hypotheses the
claim fails: the builder copies override heights unclamped — see the
counterexample.) -/
theorem from_ranges_invariants (sp : SlicingParameters)
    (ranges : List ((ℚ × ℚ) × ℚ))
    (hH : 0 < sp.object_print_z_height)
    (hlay1 : sp.min_layer_height ≤ sp.layer_height)
    (hlay2 : sp.layer_height ≤ sp.max_layer_height)
    (hfix : sp.first_object_layer_height_fixed = true →
      EPSILON < sp.first_object_layer_height ∧
      sp.first_object_layer_height ≤ sp.object_print_z_height ∧
      sp.min_layer_height ≤ sp.first_object_layer_height ∧
      sp.first_object_layer_height ≤ sp.max_layer_height)
    (hrs : ∀ r ∈ ranges, 0 ≤ r.1.1 ∧ (r.1.1 = 0 ∨ EPSILON < r.1.1) ∧
      sp.min_layer_height ≤ r.2 ∧ r.2 ≤ sp.max_layer_height) :
    profile_invariants sp (layer_height_profile_from_ranges sp ranges) ∧
      (layer_height_profile_from_ranges sp ranges).getD
        ((layer_height_profile_from_ranges sp ranges).length - 2) 0 =
        sp.object_print_z_height := by
  obtain ⟨hT, hTchain⟩ := trimRanges_ok sp ranges hfix hrs
  obtain ⟨he, hh, hc, hts, hle, hmt⟩ :=
    profFold_ok sp hlay1 hlay2 (trimRanges sp ranges) [] hT hTchain
      (by simp) (Or.inl rfl) (by unfold zChain toPairs; exact List.chain'_nil)
      (by unfold toPairs; intro pr hpr; exact absurd hpr (List.not_mem_nil pr))
      (by simpa [List.getD] using le_of_lt hH)
      (by
        intro r1 h1
        have hm : r1 ∈ trimRanges sp ranges := List.mem_of_mem_head? h1
        simpa [List.getD] using (hT r1 hm).2.2.1)
  dsimp only [layer_height_profile_from_ranges]
  set prof := (trimRanges sp ranges).foldl (profStep sp) [] with hprof
  split_ifs with hlt
  · have hshape : prof ++ [prof.getD (prof.length - 2) 0, sp.layer_height,
        sp.object_print_z_height, sp.layer_height] =
        (prof ++ [prof.getD (prof.length - 2) 0, sp.layer_height]) ++
          [sp.object_print_z_height, sp.layer_height] := by
      simp
    refine ⟨⟨?_, ?_, ?_, ?_⟩, ?_⟩
    · simp only [List.length_append, List.length_cons, List.length_nil]
      omega
    · rcases hh with hmt2 | hh
      · rw [hmt2]
        have h0 : prof.getD (prof.length - 2) 0 = 0 := by
          rw [hmt2]
          rfl
        rw [hmt2] at h0
        simp [h0]
      · rw [head?_append_left _ _ (by
          intro hn; rw [hn] at hh; exact Option.noConfusion hh)]
        exact hh
    · unfold zChain
      rw [toPairs_append prof _ he]
      refine List.chain'_append.mpr ⟨hc, ?_, ?_⟩
      · show List.Chain' _ [(prof.getD (prof.length - 2) 0, sp.layer_height),
          (sp.object_print_z_height, sp.layer_height)]
        refine List.chain'_cons.mpr ⟨le_of_lt hlt, List.chain'_singleton _⟩
      · intro x hx y hy
        rcases eq_or_ne prof [] with hmt2 | hne
        · rw [hmt2] at hx
          simp [toPairs] at hx
        · rw [toPairs_getLast? prof he hne] at hx
          rw [eq_of_mem_some hx, eq_of_mem_some hy]
    · intro pr hpr
      rw [toPairs_append prof _ he] at hpr
      rcases List.mem_append.mp hpr with h | h
      · exact hts pr h
      · have h2 : pr = (prof.getD (prof.length - 2) 0, sp.layer_height) ∨
            pr = (sp.object_print_z_height, sp.layer_height) := by
          simpa [toPairs] using h
        rcases h2 with rfl | rfl
        · exact ⟨hlay1, hlay2⟩
        · exact ⟨hlay1, hlay2⟩
    · rw [hshape]
      exact lastZ_append_pair _ _ _
  · have hEq : prof.getD (prof.length - 2) 0 = sp.object_print_z_height :=
      le_antisymm hle (not_lt.mp hlt)
    have hne : prof ≠ [] := by
      intro hmt2
      rw [hmt2] at hEq
      simp [List.getD] at hEq
      linarith
    rcases hh with hmt2 | hh
    · exact absurd hmt2 hne
    · exact ⟨⟨he, hh, hc, hts⟩, hEq⟩

/-- C2 witness: the amended invariants at a concrete input (one override
range with an in-bounds height). -/
theorem from_ranges_invariants_witness :
    profile_invariants spC2
      (layer_height_profile_from_ranges spC2 [((3/10, 3/5), 1/4)]) ∧
      (layer_height_profile_from_ranges spC2 [((3/10, 3/5), 1/4)]).getD
        ((layer_height_profile_from_ranges spC2 [((3/10, 3/5), 1/4)]).length - 2) 0 =
        spC2.object_print_z_height :=
  from_ranges_invariants spC2 [((3/10, 3/5), 1/4)]
    (by with_unfolding_all decide) (by with_unfolding_all decide)
    (by with_unfolding_all decide)
    (fun h => by with_unfolding_all decide)
    (by
      intro r hr
      rw [List.mem_singleton] at hr
      subst hr
      refine ⟨by norm_num, Or.inr (by norm_num [EPSILON]), ?_, ?_⟩ <;>
        with_unfolding_all decide)

/-! ## Claim C8 — adaptive builder shape (amended) -/

theorem drop_append_pair (q : List ℚ) (a b : ℚ) :
    (q ++ [a, b]).drop ((q ++ [a, b]).length - 2) = [a, b] := by
  have h1 : (q ++ [a, b]).length - 2 = q.length + 0 := by
    simp only [List.length_append, List.length_cons, List.length_nil]
    omega
  rw [h1, List.drop_append]
  rfl

theorem adaptGo_inv (sp : SlicingParameters) (cusp : ℚ → ℚ)
    (h999 : sp.min_layer_height ≤ 999)
    (hc : ∀ z, sp.min_layer_height ≤ cusp z ∧ cusp z ≤ sp.max_layer_height)
    (hmin : 0 ≤ sp.min_layer_height) :
    ∀ (fuel : ℕ) (slice_z height : ℚ) (acc : List ℚ),
      acc.length % 2 = 0 → acc.head? = some 0 → zChain acc →
      (∀ pr ∈ toPairs acc,
        sp.min_layer_height ≤ pr.2 ∧ pr.2 ≤ sp.max_layer_height) →
      acc.getD (acc.length - 2) 0 ≤ slice_z →
      (adaptGo sp cusp fuel slice_z height acc).length % 2 = 0 ∧
        (adaptGo sp cusp fuel slice_z height acc).head? = some 0 ∧
        zChain (adaptGo sp cusp fuel slice_z height acc) ∧
        (∀ pr ∈ toPairs (adaptGo sp cusp fuel slice_z height acc),
          sp.min_layer_height ≤ pr.2 ∧ pr.2 ≤ sp.max_layer_height)
  | 0, slice_z, height, acc, he, hh, hchain, hts, _ => ⟨he, hh, hchain, hts⟩
  | fuel + 1, slice_z, height, acc, he, hh, hchain, hts, hlast => by
    dsimp only [adaptGo]
    split_ifs with hcond
    · set h := min (cusp slice_z) 999 with hdef
      have hhb1 : sp.min_layer_height ≤ h := le_min (hc slice_z).1 h999
      have hhb2 : h ≤ sp.max_layer_height :=
        le_trans (min_le_left _ _) (hc slice_z).2
      have hne : acc ≠ [] := by
        intro hmt
        rw [hmt] at hh
        exact Option.noConfusion hh
      have hshape : acc ++ [slice_z, h, slice_z + h, h] =
          (acc ++ [slice_z, h]) ++ [slice_z + h, h] := by
        simp
      apply adaptGo_inv sp cusp h999 hc hmin fuel (slice_z + h) h
        (acc ++ [slice_z, h, slice_z + h, h])
      · simp only [List.length_append, List.length_cons, List.length_nil]
        omega
      · rw [head?_append_left _ _ hne]
        exact hh
      · unfold zChain
        rw [toPairs_append acc _ he]
        refine List.chain'_append.mpr ⟨hchain, ?_, ?_⟩
        · show List.Chain' _ [(slice_z, h), (slice_z + h, h)]
          refine List.chain'_cons.mpr
            ⟨show slice_z ≤ slice_z + h by linarith, List.chain'_singleton _⟩
        · intro x hx y hy
          rw [toPairs_getLast? acc he hne] at hx
          rw [eq_of_mem_some hx, eq_of_mem_some hy]
          exact hlast
      · intro pr hpr
        rw [toPairs_append acc _ he] at hpr
        rcases List.mem_append.mp hpr with hp | hp
        · exact hts pr hp
        · have h2 : pr = (slice_z, h) ∨ pr = (slice_z + h, h) := by
            simpa [toPairs] using hp
          rcases h2 with rfl | rfl
          · exact ⟨hhb1, hhb2⟩
          · exact ⟨hhb1, hhb2⟩
      · rw [hshape, lastZ_append_pair]
    · exact ⟨he, hh, hchain, hts⟩

/-- C8 amended: for a cusp oracle answering within
`[min_layer_height, max_layer_height]` (with a non-negative minimum below
the `999` sentinel) and a first object layer height within the same bounds,
the adaptive profile has even length, starts at `Z = 0`, stores only heights
within `[min_layer_height, max_layer_height]`, its `Z` values are
non-decreasing up to and including the closing `max(first, last)` sample,
and its final sample sits exactly at `Z = object_print_z_height()` with
height `first_object_layer_height` — but that final sample may lie BELOW
its predecessor (the loop always overshoots the object top before the
sentinel is appended), so full `Z`-monotonicity fails; see the
counterexample. -/
theorem adaptive_profile_shape (sp : SlicingParameters) (cusp : ℚ → ℚ)
    (hmin : 0 ≤ sp.min_layer_height)
    (h999 : sp.min_layer_height ≤ 999)
    (hf1 : sp.min_layer_height ≤ sp.first_object_layer_height)
    (hf2 : sp.first_object_layer_height ≤ sp.max_layer_height)
    (hc : ∀ z, sp.min_layer_height ≤ cusp z ∧ cusp z ≤ sp.max_layer_height) :
    (layer_height_profile_adaptive sp cusp).length % 2 = 0 ∧
    (layer_height_profile_adaptive sp cusp).head? = some 0 ∧
    (∀ pr ∈ toPairs (layer_height_profile_adaptive sp cusp),
      sp.min_layer_height ≤ pr.2 ∧ pr.2 ≤ sp.max_layer_height) ∧
    List.Chain' (fun a b : ℚ × ℚ => a.1 ≤ b.1)
      ((toPairs (layer_height_profile_adaptive sp cusp)).dropLast) ∧
    (layer_height_profile_adaptive sp cusp).drop
      ((layer_height_profile_adaptive sp cusp).length - 2) =
      [sp.object_print_z_height, sp.first_object_layer_height] := by
  have hf0 : 0 ≤ sp.first_object_layer_height := le_trans hmin hf1
  have hinit_even :
      ([0, sp.first_object_layer_height] ++
        (if sp.first_object_layer_height_fixed = true then
          [sp.first_object_layer_height, sp.first_object_layer_height]
        else [])).length % 2 = 0 := by
    split_ifs <;> simp
  have hinit_head :
      ([0, sp.first_object_layer_height] ++
        (if sp.first_object_layer_height_fixed = true then
          [sp.first_object_layer_height, sp.first_object_layer_height]
        else [])).head? = some 0 := by
    split_ifs <;> rfl
  have hinit_chain : zChain
      ([0, sp.first_object_layer_height] ++
        (if sp.first_object_layer_height_fixed = true then
          [sp.first_object_layer_height, sp.first_object_layer_height]
        else [])) := by
    unfold zChain
    split_ifs
    · show List.Chain' _ [(0, sp.first_object_layer_height),
        (sp.first_object_layer_height, sp.first_object_layer_height)]
      exact List.chain'_cons.mpr ⟨hf0, List.chain'_singleton _⟩
    · show List.Chain' _ [(0, sp.first_object_layer_height)]
      exact List.chain'_singleton _
  have hinit_hts : ∀ pr ∈ toPairs
      ([0, sp.first_object_layer_height] ++
        (if sp.first_object_layer_height_fixed = true then
          [sp.first_object_layer_height, sp.first_object_layer_height]
        else [])),
      sp.min_layer_height ≤ pr.2 ∧ pr.2 ≤ sp.max_layer_height := by
    split_ifs <;>
      · intro pr hpr
        have h2 := by simpa [toPairs] using hpr
        first
          | (rcases h2 with rfl | rfl
             · exact ⟨hf1, hf2⟩
             · exact ⟨hf1, hf2⟩)
          | (rcases h2 with rfl
             exact ⟨hf1, hf2⟩)
  have hinit_last :
      ([0, sp.first_object_layer_height] ++
        (if sp.first_object_layer_height_fixed = true then
          [sp.first_object_layer_height, sp.first_object_layer_height]
        else [])).getD
        (([0, sp.first_object_layer_height] ++
          (if sp.first_object_layer_height_fixed = true then
            [sp.first_object_layer_height, sp.first_object_layer_height]
          else [])).length - 2) 0 ≤ sp.first_object_layer_height := by
    split_ifs <;> simp [List.getD, hf0]
  obtain ⟨he, hh, hchain, hts⟩ :=
    adaptGo_inv sp cusp h999 hc hmin (adaptFuel sp)
      sp.first_object_layer_height sp.first_object_layer_height _
      hinit_even hinit_head hinit_chain hinit_hts hinit_last
  dsimp only [layer_height_profile_adaptive]
  set prof := adaptGo sp cusp (adaptFuel sp) sp.first_object_layer_height
    sp.first_object_layer_height
    ([0, sp.first_object_layer_height] ++
      (if sp.first_object_layer_height_fixed = true then
        [sp.first_object_layer_height, sp.first_object_layer_height]
      else [])) with hprof
  have hne : prof ≠ [] := by
    intro hmt
    rw [hmt] at hh
    exact Option.noConfusion hh
  set last := max sp.first_object_layer_height (prof.getD (prof.length - 2) 0)
    with hlastdef
  have hshape : prof ++ [last, sp.first_object_layer_height,
      sp.object_print_z_height, sp.first_object_layer_height] =
      (prof ++ [last, sp.first_object_layer_height]) ++
        [sp.object_print_z_height, sp.first_object_layer_height] := by
    simp
  refine ⟨?_, ?_, ?_, ?_, ?_⟩
  · simp only [List.length_append, List.length_cons, List.length_nil]
    omega
  · rw [head?_append_left _ _ hne]
    exact hh
  · intro pr hpr
    rw [toPairs_append prof _ he] at hpr
    rcases List.mem_append.mp hpr with hp | hp
    · exact hts pr hp
    · have h2 : pr = (last, sp.first_object_layer_height) ∨
          pr = (sp.object_print_z_height, sp.first_object_layer_height) := by
        simpa [toPairs] using hp
      rcases h2 with rfl | rfl
      · exact ⟨hf1, hf2⟩
      · exact ⟨hf1, hf2⟩
  · rw [toPairs_append prof _ he]
    have hdl : (toPairs prof ++
        [(last, sp.first_object_layer_height),
          (sp.object_print_z_height, sp.first_object_layer_height)]).dropLast =
        toPairs prof ++ [(last, sp.first_object_layer_height)] := by
      have h3 : toPairs prof ++
          [(last, sp.first_object_layer_height),
            (sp.object_print_z_height, sp.first_object_layer_height)] =
          (toPairs prof ++ [(last, sp.first_object_layer_height)]) ++
            [(sp.object_print_z_height, sp.first_object_layer_height)] := by
        simp
      rw [h3, List.dropLast_concat]
    have h5 : toPairs [last, sp.first_object_layer_height,
        sp.object_print_z_height, sp.first_object_layer_height] =
        [(last, sp.first_object_layer_height),
          (sp.object_print_z_height, sp.first_object_layer_height)] := rfl
    rw [h5, hdl]
    refine List.chain'_append.mpr ⟨hchain, List.chain'_singleton _, ?_⟩
    intro x hx y hy
    rw [toPairs_getLast? prof he hne] at hx
    rw [eq_of_mem_some hx, eq_of_mem_some hy]
    exact le_max_right _ _
  · rw [hshape]
    exact drop_append_pair _ _ _

/-- C8 witness: the amended shape at a concrete oracle and parameter set. -/
theorem adaptive_profile_shape_witness :
    (layer_height_profile_adaptive spC8 cuspC8).length % 2 = 0 ∧
    (layer_height_profile_adaptive spC8 cuspC8).head? = some 0 ∧
    (∀ pr ∈ toPairs (layer_height_profile_adaptive spC8 cuspC8),
      spC8.min_layer_height ≤ pr.2 ∧ pr.2 ≤ spC8.max_layer_height) ∧
    List.Chain' (fun a b : ℚ × ℚ => a.1 ≤ b.1)
      ((toPairs (layer_height_profile_adaptive spC8 cuspC8)).dropLast) ∧
    (layer_height_profile_adaptive spC8 cuspC8).drop
      ((layer_height_profile_adaptive spC8 cuspC8).length - 2) =
      [spC8.object_print_z_height, spC8.first_object_layer_height] :=
  adaptive_profile_shape spC8 cuspC8
    (by with_unfolding_all decide) (by with_unfolding_all decide)
    (by with_unfolding_all decide) (by with_unfolding_all decide)
    (fun z => by
      show spC8.min_layer_height ≤ 1/4 ∧ (1:ℚ)/4 ≤ spC8.max_layer_height
      with_unfolding_all decide)

/-! ## Claim C3 amended — the earlier range wins on the overlap -/

/-- C3 amended: among overlapping user ranges, the one encountered EARLIER
in sorted-by-low-boundary order determines the profile height on the
overlapped region.  For two overlapping ranges `[0, hi1] → h1` and
`[lo2, hi2] → h2` (both clipped ends at or below the object height, with a
bridging first object layer so no first-layer range is seeded), the trimming
loop clips the later range's low end up to `hi1`, so the profile built by
`layer_height_profile_from_ranges` interpolates to the FIRST range's height
`h1` at every `z` of the overlapped region `[lo2, hi1)`. -/
theorem from_ranges_overlap_earlier_wins (sp : SlicingParameters)
    (hi1 h1 lo2 hi2 h2 z : ℚ)
    (hbr : sp.first_object_layer_bridging = true)
    (hhi1 : hi1 ≤ sp.object_print_z_height)
    (hwide : EPSILON < hi1)
    (hlo2 : 0 ≤ lo2) (hover : lo2 < hi1)
    (hhi2 : hi2 ≤ sp.object_print_z_height)
    (hz1 : lo2 ≤ z) (hz2 : z < hi1) :
    profile_interpolate sp
      (layer_height_profile_from_ranges sp [((0, hi1), h1), ((lo2, hi2), h2)]) z
      = h1 := by
  have hε : (0:ℚ) < EPSILON := by norm_num [EPSILON]
  have hfix : sp.first_object_layer_height_fixed = false := by
    simp [SlicingParameters.first_object_layer_height_fixed, hbr]
  have e1 : trimStep sp [] ((0, hi1), h1) = [((0, hi1), h1)] := by
    dsimp only [trimStep]
    rw [show ([] : List ((ℚ × ℚ) × ℚ)).getLast? = none from rfl]
    dsimp only []
    rw [min_eq_left hhi1, if_pos (by linarith : (0:ℚ) + EPSILON < hi1)]
    simp
  have e2 : trimStep sp [((0, hi1), h1)] ((lo2, hi2), h2) =
      [((0, hi1), h1)] ++
        (if hi1 + EPSILON < hi2 then [((hi1, hi2), h2)] else []) := by
    dsimp only [trimStep]
    simp only [List.getLast?_singleton]
    rw [min_eq_left hhi2, max_eq_right (le_of_lt hover)]
    split_ifs <;> simp
  have etrim : trimRanges sp [((0, hi1), h1), ((lo2, hi2), h2)] =
      [((0, hi1), h1)] ++
        (if hi1 + EPSILON < hi2 then [((hi1, hi2), h2)] else []) := by
    have einit : (if sp.first_object_layer_height_fixed then
        [((0, sp.first_object_layer_height), sp.first_object_layer_height)]
      else ([] : List ((ℚ × ℚ) × ℚ))) = [] := by
      rw [hfix]
      rfl
    dsimp only [trimRanges]
    rw [einit, List.foldl_cons, List.foldl_cons, List.foldl_nil]
    rw [e1, e2]
  have ep1 : profStep sp [] ((0, hi1), h1) = [0, h1, hi1, h1] := by
    dsimp only [profStep]
    simp only [List.getD_nil, List.length_nil]
    rw [if_neg (by linarith : ¬ ((0:ℚ) + EPSILON < 0))]
    simp
  have ep2 : profStep sp [0, h1, hi1, h1] ((hi1, hi2), h2) =
      [0, h1, hi1, h1, hi1, h2, hi2, h2] := by
    dsimp only [profStep]
    have hlz : [0, h1, hi1, h1].getD ([0, h1, hi1, h1].length - 2) 0 = hi1 := rfl
    rw [hlz, if_neg (not_lt.mpr (by linarith : hi1 ≤ hi1 + EPSILON))]
    simp
  obtain ⟨rest, hkey⟩ : ∃ rest, layer_height_profile_from_ranges sp
      [((0, hi1), h1), ((lo2, hi2), h2)] = 0 :: h1 :: hi1 :: h1 :: rest := by
    dsimp only [layer_height_profile_from_ranges]
    rw [etrim]
    by_cases hc : hi1 + EPSILON < hi2
    · rw [if_pos hc]
      simp only [List.cons_append, List.nil_append, List.foldl_cons,
        List.foldl_nil]
      rw [ep1, ep2]
      split_ifs with hd
      · exact ⟨_, rfl⟩
      · exact ⟨_, rfl⟩
    · rw [if_neg hc]
      simp only [List.append_nil, List.foldl_cons, List.foldl_nil]
      rw [ep1]
      split_ifs with hd
      · exact ⟨_, rfl⟩
      · exact ⟨_, rfl⟩
  rw [hkey]
  have hstep : profile_interpolate sp (0 :: h1 :: hi1 :: h1 :: rest) z =
      if hi1 > z then lerp h1 h1 ((z - 0) / (hi1 - 0))
      else profile_interpolate sp (hi1 :: h1 :: rest) z := rfl
  rw [hstep, if_pos (by linarith : hi1 > z)]
  dsimp only [lerp]
  ring

/-- C3 witness: the amended tie-break at the concrete overlapping ranges
`[0,5] → 0.1` and `[3,6] → 0.3` of `spC3`, sampled at `z = 4` inside the
overlap `[3,5)`. -/
theorem from_ranges_overlap_earlier_wins_witness :
    profile_interpolate spC3
      (layer_height_profile_from_ranges spC3 [((0, 5), 1/10), ((3, 6), 3/10)]) 4
      = 1/10 :=
  from_ranges_overlap_earlier_wins spC3 5 (1/10) 3 6 (3/10) 4 rfl
    (by with_unfolding_all decide) (by with_unfolding_all decide)
    (by with_unfolding_all decide) (by with_unfolding_all decide)
    (by with_unfolding_all decide) (by with_unfolding_all decide)
    (by with_unfolding_all decide)

/-! ## Claim C1 — infrastructure for the layer boundary generator -/

/-- A member of the pair view from an even flat index. -/
theorem toPairs_getD_mem : ∀ (p : List ℚ) (i : ℕ), i % 2 = 0 → i + 1 < p.length →
    (p.getD i 0, p.getD (i + 1) 0) ∈ toPairs p
  | [], _, _, hl => by simp at hl
  | [_], _, _, hl => by
    simp only [List.length_cons, List.length_nil] at hl
    omega
  | _ :: _ :: _, 0, _, _ => by simp [toPairs]
  | _ :: _ :: _, 1, he, _ => by omega
  | a :: b :: t, i + 2, he, hl => by
    have ih := toPairs_getD_mem t i (by omega)
      (by simp only [List.length_cons] at hl; omega)
    simp only [List.getD_cons_succ, toPairs]
    exact List.mem_cons_of_mem _ ih

theorem mem_of_getLast?_mem {α : Type} {l : List α} {x : α}
    (h : x ∈ l.getLast?) : x ∈ l := by
  obtain ⟨hne, rfl⟩ := List.mem_getLast?_eq_getLast h
  exact List.getLast_mem hne

theorem genWalk_ge (p : List ℚ) (s : ℚ) : ∀ (fuel i : ℕ), i ≤ genWalk p s fuel i
  | 0, i => le_refl i
  | fuel + 1, i => by
    unfold genWalk
    split_ifs with h
    · exact le_trans (by omega) (genWalk_ge p s fuel (i + 2))
    · exact le_refl i

theorem genWalk_even (p : List ℚ) (s : ℚ) :
    ∀ (fuel i : ℕ), ∃ k, genWalk p s fuel i = i + 2 * k
  | 0, i => ⟨0, rfl⟩
  | fuel + 1, i => by
    unfold genWalk
    split_ifs with h
    · obtain ⟨k, hk⟩ := genWalk_even p s fuel (i + 2)
      exact ⟨k + 1, by omega⟩
    · exact ⟨0, rfl⟩

theorem genWalk_lt_length (p : List ℚ) (s : ℚ) :
    ∀ (fuel i : ℕ), i < p.length → genWalk p s fuel i < p.length
  | 0, _, h => h
  | fuel + 1, i, h => by
    unfold genWalk
    split_ifs with hc
    · exact genWalk_lt_length p s fuel (i + 2) hc.1
    · exact h

/-- With fuel at least `(p.length − i)/2` the segment-advance loop runs to
completion: its final index has no next sample at or below the probe. -/
theorem genWalk_exit (p : List ℚ) (s : ℚ) :
    ∀ (fuel i : ℕ), p.length ≤ i + 2 * fuel →
      ¬ (genWalk p s fuel i + 2 < p.length ∧
        p.getD (genWalk p s fuel i + 2) 0 ≤ s)
  | 0, i, hfuel => by
    unfold genWalk
    intro hcon
    omega
  | fuel + 1, i, hfuel => by
    unfold genWalk
    split_ifs with h
    · exact genWalk_exit p s fuel (i + 2) (by omega)
    · exact h

/-- The advance loop keeps the sample at its index at or below the probe. -/
theorem genWalk_getD_le (p : List ℚ) (s : ℚ) :
    ∀ (fuel i : ℕ), p.getD i 0 ≤ s → p.getD (genWalk p s fuel i) 0 ≤ s
  | 0, _, h => h
  | fuel + 1, i, h => by
    unfold genWalk
    split_ifs with hc
    · exact genWalk_getD_le p s fuel (i + 2) hc.2
    · exact h

/-- Loop invariant of the emitted layer list `acc` with layer top `print_z`:
even length, bottoms start at `0`, consecutive layers are contiguous, the
last top is `print_z`, every thickness lies in
`[min_layer_height, max_layer_height]`, and every top stays within half a
maximum layer height of the object top. -/
def genAccInv (sp : SlicingParameters) (print_z : ℚ) (acc : List ℚ) : Prop :=
  acc.length % 2 = 0 ∧
  (acc = [] → print_z = 0) ∧
  (∀ q ∈ (toPairs acc).head?, q.1 = 0) ∧
  List.Chain' (fun a b : ℚ × ℚ => a.2 = b.1) (toPairs acc) ∧
  (∀ q ∈ (toPairs acc).getLast?, q.2 = print_z) ∧
  (∀ pr ∈ toPairs acc, sp.min_layer_height ≤ pr.2 - pr.1 ∧
    pr.2 - pr.1 ≤ sp.max_layer_height) ∧
  (∀ pr ∈ toPairs acc,
    pr.2 ≤ sp.object_print_z_height + sp.max_layer_height / 2)

/-- Emitting one layer of thickness `height ∈ [min, max]` preserves the
invariant. -/
theorem genAccInv_append (sp : SlicingParameters) (print_z height : ℚ)
    (acc : List ℚ) (hinv : genAccInv sp print_z acc)
    (hhb1 : sp.min_layer_height ≤ height)
    (hhb2 : height ≤ sp.max_layer_height)
    (htop : print_z + height ≤
      sp.object_print_z_height + sp.max_layer_height / 2) :
    genAccInv sp (print_z + height) (acc ++ [print_z, print_z + height]) := by
  obtain ⟨he, hz0, hhead, hchain, hlastz, hth, htops⟩ := hinv
  have hpairs : toPairs (acc ++ [print_z, print_z + height]) =
      toPairs acc ++ [(print_z, print_z + height)] := by
    rw [toPairs_append acc _ he]
    rfl
  refine ⟨?_, ?_, ?_, ?_, ?_, ?_, ?_⟩
  · simp only [List.length_append, List.length_cons, List.length_nil]
    omega
  · intro hmt
    exact absurd hmt (by simp)
  · rw [hpairs]
    rcases eq_or_ne acc [] with rfl | hne
    · intro q hq
      have h2 : (print_z, print_z + height) = q := by
        simpa [toPairs] using hq
      rw [← h2]
      show print_z = 0
      exact hz0 rfl
    · have hpne : toPairs acc ≠ [] := by
        intro h2
        have h3 := toPairs_getLast? acc he hne
        rw [h2] at h3
        exact Option.noConfusion h3
      rw [head?_append_left _ _ hpne]
      exact hhead
  · rw [hpairs]
    refine List.chain'_append.mpr ⟨hchain, List.chain'_singleton _, ?_⟩
    intro x hx y hy
    have h2 : (print_z, print_z + height) = y := by simpa using hy
    rw [← h2]
    show x.2 = print_z
    exact hlastz x hx
  · rw [hpairs]
    intro q hq
    rw [List.getLast?_concat] at hq
    have h2 : q = (print_z, print_z + height) := eq_of_mem_some hq
    rw [h2]
  · rw [hpairs]
    intro pr hpr
    rcases List.mem_append.mp hpr with hp | hp
    · exact hth pr hp
    · have h2 : pr = (print_z, print_z + height) := by simpa using hp
      rw [h2]
      constructor
      · show sp.min_layer_height ≤ print_z + height - print_z
        linarith
      · show print_z + height - print_z ≤ sp.max_layer_height
        linarith
  · rw [hpairs]
    intro pr hpr
    rcases List.mem_append.mp hpr with hp | hp
    · exact htops pr hp
    · have h2 : pr = (print_z, print_z + height) := by simpa using hp
      rw [h2]
      exact htop

/-- Over a contiguous layer list, thicknesses telescope: their sum is the
last top minus the first bottom. -/
theorem chain_sum_diffs : ∀ (l : List (ℚ × ℚ)),
    List.Chain' (fun a b : ℚ × ℚ => a.2 = b.1) l →
    ∀ q0 ∈ l.head?, ∀ q1 ∈ l.getLast?,
      (l.map fun pr => pr.2 - pr.1).sum = q1.2 - q0.1
  | [], _, q0, h0, _, _ => by simp at h0
  | [a], _, q0, h0, q1, h1 => by
    have e0 : a = q0 := by simpa using h0
    have e1 : a = q1 := by simpa using h1
    rw [← e0, ← e1]
    simp
  | a :: b :: t, hch, q0, h0, q1, h1 => by
    obtain ⟨hab, hch2⟩ := List.chain'_cons.mp hch
    have h1b : q1 ∈ (b :: t).getLast? := by
      rwa [List.getLast?_cons_cons] at h1
    have ih := chain_sum_diffs (b :: t) hch2 b (by simp) q1 h1b
    have e0 : a = q0 := by simpa using h0
    rw [← e0]
    simp only [List.map_cons, List.sum_cons] at ih ⊢
    linarith [hab]

theorem genFuel_adequate (sp : SlicingParameters) (z0 : ℚ)
    (hmin : 0 < sp.min_layer_height) :
    sp.object_print_z_height - z0 ≤
      (genFuel sp z0 : ℚ) * sp.min_layer_height := by
  have h1 := le_iterBound ((sp.object_print_z_height - z0) / sp.min_layer_height)
  rw [div_le_iff hmin] at h1
  unfold genFuel
  exact h1

/-- Main induction for `generate_object_layers`: the emission loop preserves
`genAccInv`, and with adequate fuel it stops with the final top within half a
maximum layer height of the object top. -/
theorem genGo_inv (sp : SlicingParameters) (p : List ℚ)
    (hmin : 0 < sp.min_layer_height)
    (hmm : sp.min_layer_height ≤ sp.max_layer_height)
    (hlen : p.length % 2 = 0)
    (hhts : ∀ pr ∈ toPairs p,
      sp.min_layer_height ≤ pr.2 ∧ pr.2 ≤ sp.max_layer_height) :
    ∀ (fuel : ℕ) (print_z : ℚ) (idx : ℕ) (acc : List ℚ),
      genAccInv sp print_z acc →
      idx % 2 = 0 →
      (p ≠ [] → idx < p.length ∧
        p.getD idx 0 ≤ print_z + sp.min_layer_height / 2) →
      sp.object_print_z_height - print_z ≤ (fuel : ℚ) * sp.min_layer_height →
      ∃ pz', genAccInv sp pz' (genGo sp p fuel print_z idx acc) ∧
        sp.object_print_z_height - sp.max_layer_height / 2 ≤ pz'
  | 0, print_z, idx, acc, hinv, _, _, hfuel => by
    refine ⟨print_z, hinv, ?_⟩
    push_cast at hfuel
    linarith
  | fuel + 1, print_z, idx, acc, hinv, hidx, hidxp, hfuel => by
    dsimp only [genGo]
    by_cases houter :
        print_z + sp.min_layer_height / 2 < sp.object_print_z_height
    · rw [if_pos houter]
      rcases eq_or_ne p [] with rfl | hp
      · have hnil : ¬ (idx < ([] : List ℚ).length) := by simp
        rw [if_neg hnil, if_neg hnil]
        rw [if_neg (by linarith : ¬ (sp.object_print_z_height ≤
          print_z + sp.min_layer_height / 2))]
        exact genGo_inv sp [] hmin hmm hlen hhts fuel
          (print_z + sp.min_layer_height) idx
          (acc ++ [print_z, print_z + sp.min_layer_height])
          (genAccInv_append sp print_z sp.min_layer_height acc hinv
            (le_refl _) hmm (by linarith))
          hidx (fun h => absurd rfl h)
          (by push_cast at hfuel ⊢; linarith)
      · obtain ⟨hilt, hile⟩ := hidxp hp
        rw [if_pos hilt, if_pos hilt]
        set j := genWalk p (print_z + sp.min_layer_height / 2) p.length idx
          with hj
        have hjge : idx ≤ j := genWalk_ge p _ p.length idx
        have hjeven : j % 2 = 0 := by
          obtain ⟨k, hk⟩ :=
            genWalk_even p (print_z + sp.min_layer_height / 2) p.length idx
          omega
        have hjlt : j < p.length := genWalk_lt_length p _ p.length idx hilt
        have hjle : p.getD j 0 ≤ print_z + sp.min_layer_height / 2 :=
          genWalk_getD_le p _ p.length idx hile
        have hjexit :=
          genWalk_exit p (print_z + sp.min_layer_height / 2) p.length idx
            (by omega)
        have hj1 : j + 1 < p.length := by omega
        have hmem1 := toPairs_getD_mem p j hjeven hj1
        have hb1 : sp.min_layer_height ≤ p.getD (j + 1) 0 ∧
            p.getD (j + 1) 0 ≤ sp.max_layer_height := hhts _ hmem1
        by_cases hw : j + 2 < p.length
        · rw [if_pos hw]
          have hzlt : print_z + sp.min_layer_height / 2 < p.getD (j + 2) 0 := by
            by_contra hcon
            exact hjexit ⟨hw, not_lt.mp hcon⟩
          have hmem2 := toPairs_getD_mem p (j + 2) (by omega) (by omega)
          have hb2 : sp.min_layer_height ≤ p.getD (j + 2 + 1) 0 ∧
              p.getD (j + 2 + 1) 0 ≤ sp.max_layer_height := hhts _ hmem2
          have e231 : j + 2 + 1 = j + 3 := by omega
          rw [e231] at hb2
          have hden : 0 < p.getD (j + 2) 0 - p.getD j 0 := by linarith
          have ht0 : 0 ≤ (print_z + sp.min_layer_height / 2 - p.getD j 0) /
              (p.getD (j + 2) 0 - p.getD j 0) :=
            div_nonneg (by linarith) (le_of_lt hden)
          have ht1 : (print_z + sp.min_layer_height / 2 - p.getD j 0) /
              (p.getD (j + 2) 0 - p.getD j 0) ≤ 1 :=
            (div_le_one hden).mpr (by linarith)
          have hh := lerp_bounds hb1.1 hb1.2 hb2.1 hb2.2 ht0 ht1
          set hgt := lerp (p.getD (j + 1) 0) (p.getD (j + 3) 0)
            ((print_z + sp.min_layer_height / 2 - p.getD j 0) /
              (p.getD (j + 2) 0 - p.getD j 0)) with hhgt
          by_cases hex : sp.object_print_z_height ≤ print_z + hgt / 2
          · rw [if_pos hex]
            exact ⟨print_z, hinv, by linarith [hh.2]⟩
          · rw [if_neg hex]
            have hexlt := not_le.mp hex
            exact genGo_inv sp p hmin hmm hlen hhts fuel (print_z + hgt) j
              (acc ++ [print_z, print_z + hgt])
              (genAccInv_append sp print_z hgt acc hinv hh.1 hh.2
                (by linarith [hh.2]))
              hjeven
              (fun _ => ⟨hjlt, by linarith [hh.1]⟩)
              (by push_cast at hfuel ⊢; linarith [hh.1])
        · rw [if_neg hw]
          by_cases hex : sp.object_print_z_height ≤
              print_z + p.getD (j + 1) 0 / 2
          · rw [if_pos hex]
            exact ⟨print_z, hinv, by linarith [hb1.2]⟩
          · rw [if_neg hex]
            have hexlt := not_le.mp hex
            exact genGo_inv sp p hmin hmm hlen hhts fuel
              (print_z + p.getD (j + 1) 0) j
              (acc ++ [print_z, print_z + p.getD (j + 1) 0])
              (genAccInv_append sp print_z (p.getD (j + 1) 0) acc hinv hb1.1
                hb1.2 (by linarith [hb1.2]))
              hjeven
              (fun _ => ⟨hjlt, by linarith [hb1.1]⟩)
              (by push_cast at hfuel ⊢; linarith [hb1.1])
    · rw [if_neg houter]
      refine ⟨print_z, hinv, ?_⟩
      have h2 := not_lt.mp houter
      linarith

/-- The claim's conclusions, read off a terminated `genAccInv` state. -/
theorem genConclusions (sp : SlicingParameters) (out : List ℚ)
    (h : ∃ pz', genAccInv sp pz' out ∧
      sp.object_print_z_height - sp.max_layer_height / 2 ≤ pz') :
    out.length % 2 = 0 ∧
    (∀ q ∈ (toPairs out).head?, q.1 = 0) ∧
    List.Chain' (fun a b : ℚ × ℚ => a.2 = b.1) (toPairs out) ∧
    (∀ pr ∈ toPairs out, sp.min_layer_height ≤ pr.2 - pr.1 ∧
      pr.2 - pr.1 ≤ sp.max_layer_height) ∧
    (∀ q ∈ (toPairs out).getLast?,
      sp.object_print_z_height - sp.max_layer_height / 2 ≤ q.2 ∧
      q.2 ≤ sp.object_print_z_height + sp.max_layer_height / 2) ∧
    (∀ q ∈ (toPairs out).getLast?,
      |((toPairs out).map fun pr => pr.2 - pr.1).sum -
        sp.object_print_z_height| ≤ sp.max_layer_height / 2) := by
  obtain ⟨pz', ⟨ge, gz0, ghead, gchain, glast, gth, gtops⟩, hlow⟩ := h
  refine ⟨ge, ghead, gchain, gth, ?_, ?_⟩
  · intro q hq
    have hq2 : q ∈ toPairs out := mem_of_getLast?_mem hq
    constructor
    · rw [glast q hq]
      exact hlow
    · exact gtops q hq2
  · intro q hq
    have hne : toPairs out ≠ [] := by
      intro h2
      rw [h2] at hq
      simp at hq
    obtain ⟨q0, t, hqt⟩ : ∃ q0 t, toPairs out = q0 :: t := by
      cases hcase : toPairs out with
      | nil => exact absurd hcase hne
      | cons x xs => exact ⟨x, xs, rfl⟩
    have hq0 : q0 ∈ (toPairs out).head? := by
      rw [hqt]
      simp
    have hsum := chain_sum_diffs (toPairs out) gchain q0 hq0 q hq
    rw [hsum]
    have h01 : q0.1 = 0 := ghead q0 hq0
    have hq2 : q ∈ toPairs out := mem_of_getLast?_mem hq
    have hup := gtops q hq2
    have hlo2 : q.2 = pz' := glast q hq
    rw [abs_le]
    constructor
    · linarith
    · linarith

/-- C1 amended: for positive `min_layer_height ≤ max_layer_height`, a
profile satisfying the profile invariants, and a fixed first object layer
height within `[min_layer_height, max_layer_height]` and at most the object
height, `generate_object_layers` emits a flat `(bottom, top)` sequence with
`bottom_0 = 0`, contiguous layers (`top_i = bottom_{i+1}`), every thickness
in `[min_layer_height, max_layer_height]`, and the final top — hence also
the sum of all thicknesses — within HALF a `max_layer_height` of
`object_print_z_height()` on both sides (the claim's `top_last ≤
object_print_z_height()` and one-`min_layer_height` coverage bounds are
wrong; see the counterexample). -/
theorem generate_object_layers_invariants (sp : SlicingParameters)
    (p : List ℚ)
    (hmin : 0 < sp.min_layer_height)
    (hmm : sp.min_layer_height ≤ sp.max_layer_height)
    (hprof : profile_invariants sp p)
    (hfix : sp.first_object_layer_height_fixed = true →
      sp.min_layer_height ≤ sp.first_object_layer_height ∧
      sp.first_object_layer_height ≤ sp.max_layer_height ∧
      sp.first_object_layer_height ≤ sp.object_print_z_height) :
    (generate_object_layers sp p).length % 2 = 0 ∧
    (∀ q ∈ (toPairs (generate_object_layers sp p)).head?, q.1 = 0) ∧
    List.Chain' (fun a b : ℚ × ℚ => a.2 = b.1)
      (toPairs (generate_object_layers sp p)) ∧
    (∀ pr ∈ toPairs (generate_object_layers sp p),
      sp.min_layer_height ≤ pr.2 - pr.1 ∧
      pr.2 - pr.1 ≤ sp.max_layer_height) ∧
    (∀ q ∈ (toPairs (generate_object_layers sp p)).getLast?,
      sp.object_print_z_height - sp.max_layer_height / 2 ≤ q.2 ∧
      q.2 ≤ sp.object_print_z_height + sp.max_layer_height / 2) ∧
    (∀ q ∈ (toPairs (generate_object_layers sp p)).getLast?,
      |((toPairs (generate_object_layers sp p)).map
          fun pr => pr.2 - pr.1).sum -
        sp.object_print_z_height| ≤ sp.max_layer_height / 2) := by
  obtain ⟨hlen, hhead, hchain, hhts⟩ := hprof
  have hp0 : p ≠ [] → p.getD 0 0 = 0 := by
    intro hne
    cases p with
    | nil => exact absurd rfl hne
    | cons a t =>
      have h2 : a = 0 := by simpa using hhead
      simp [h2]
  dsimp only [generate_object_layers]
  by_cases hfx : sp.first_object_layer_height_fixed = true
  · rw [if_pos hfx, if_pos hfx]
    obtain ⟨hf1, hf2, hf3⟩ := hfix hfx
    have hf0 : 0 < sp.first_object_layer_height := lt_of_lt_of_le hmin hf1
    have hinv0 : genAccInv sp sp.first_object_layer_height
        [0, sp.first_object_layer_height] := by
      refine ⟨by simp, by simp, ?_, ?_, ?_, ?_, ?_⟩
      · intro q hq
        have h2 : ((0:ℚ), sp.first_object_layer_height) = q := by
          simpa [toPairs] using hq
        rw [← h2]
      · exact List.chain'_singleton _
      · intro q hq
        have h2 : ((0:ℚ), sp.first_object_layer_height) = q := by
          simpa [toPairs] using hq
        rw [← h2]
      · intro pr hpr
        have h2 : pr = ((0:ℚ), sp.first_object_layer_height) := by
          simpa [toPairs] using hpr
        rw [h2]
        constructor
        · show sp.min_layer_height ≤ sp.first_object_layer_height - 0
          linarith
        · show sp.first_object_layer_height - 0 ≤ sp.max_layer_height
          linarith
      · intro pr hpr
        have h2 : pr = ((0:ℚ), sp.first_object_layer_height) := by
          simpa [toPairs] using hpr
        rw [h2]
        show sp.first_object_layer_height ≤
          sp.object_print_z_height + sp.max_layer_height / 2
        linarith
    exact genConclusions sp _
      (genGo_inv sp p hmin hmm hlen hhts
        (genFuel sp sp.first_object_layer_height)
        sp.first_object_layer_height 0 [0, sp.first_object_layer_height]
        hinv0 rfl
        (fun hne => ⟨List.length_pos.mpr hne, by rw [hp0 hne]; linarith⟩)
        (genFuel_adequate sp sp.first_object_layer_height hmin))
  · rw [if_neg hfx, if_neg hfx]
    have hinv0 : genAccInv sp 0 [] := by
      refine ⟨rfl, fun _ => rfl, ?_, ?_, ?_, ?_, ?_⟩
      · intro q hq
        simp [toPairs] at hq
      · exact List.chain'_nil
      · intro q hq
        simp [toPairs] at hq
      · intro pr hpr
        simp [toPairs] at hpr
      · intro pr hpr
        simp [toPairs] at hpr
    exact genConclusions sp _
      (genGo_inv sp p hmin hmm hlen hhts (genFuel sp 0) 0 0 [] hinv0 rfl
        (fun hne => ⟨List.length_pos.mpr hne, by rw [hp0 hne]; linarith⟩)
        (genFuel_adequate sp 0 hmin))

/-- C1 witness: the amended invariants at `spC9` and the profile
`[0, 0.2, 1, 0.2]`. -/
theorem generate_object_layers_invariants_witness :
    (generate_object_layers spC9 [0, 1/5, 1, 1/5]).length % 2 = 0 ∧
    (∀ q ∈ (toPairs (generate_object_layers spC9 [0, 1/5, 1, 1/5])).head?,
      q.1 = 0) ∧
    List.Chain' (fun a b : ℚ × ℚ => a.2 = b.1)
      (toPairs (generate_object_layers spC9 [0, 1/5, 1, 1/5])) ∧
    (∀ pr ∈ toPairs (generate_object_layers spC9 [0, 1/5, 1, 1/5]),
      spC9.min_layer_height ≤ pr.2 - pr.1 ∧
      pr.2 - pr.1 ≤ spC9.max_layer_height) ∧
    (∀ q ∈ (toPairs (generate_object_layers spC9 [0, 1/5, 1, 1/5])).getLast?,
      spC9.object_print_z_height - spC9.max_layer_height / 2 ≤ q.2 ∧
      q.2 ≤ spC9.object_print_z_height + spC9.max_layer_height / 2) ∧
    (∀ q ∈ (toPairs (generate_object_layers spC9 [0, 1/5, 1, 1/5])).getLast?,
      |((toPairs (generate_object_layers spC9 [0, 1/5, 1, 1/5])).map
          fun pr => pr.2 - pr.1).sum -
        spC9.object_print_z_height| ≤ spC9.max_layer_height / 2) :=
  generate_object_layers_invariants spC9 [0, 1/5, 1, 1/5]
    (by with_unfolding_all decide) (by with_unfolding_all decide)
    (by with_unfolding_all decide)
    (fun _ => ⟨by with_unfolding_all decide, by with_unfolding_all decide,
      by with_unfolding_all decide⟩)

end Slic3r
